import Mathlib

/-!
Shallow embedding of the core of the krnl-onboarding-system backend
(`src/backend/orchestrator.py`, `src/backend/agents/base_agent.py`,
`src/backend/agents/validator_agent.py`,
`src/backend/communication/a2a_system.py`), together with theorems settling
the frozen claims about the workflow engine, the execution wrapper, and the
agent-to-agent message bus.

Modelling conventions:
* JSON-like Python values (the `Dict[str, Any]` payloads flowing through the
  pipeline) are embedded as the inductive type `Val`; Python `dict`s are
  insertion-ordered association lists, exactly as CPython dicts behave.
* UUIDs are modelled as `Nat` identifiers; an exception is modelled by an
  `Except String` result whose `error` carries `str(e)`, since every handler
  in the embedded code only ever inspects `str(e)`.
* Database writes are modelled explicitly: an audit write carries a
  `persisted` flag, and whether the write succeeds is a parameter of the run
  (`dbWriteOk`), mirroring the try/except around the commit in
  `BaseAgent._log_execution`.
* Wall-clock data (`execution_time_ms`, `created_at`, timestamps) is not
  modelled: no claim depends on it.
-/

namespace KrnlOnboarding

/-- JSON-like runtime values: the payloads the Python code passes around as
`Dict[str, Any]`. Objects are insertion-ordered association lists, matching
CPython dict semantics. -/
inductive Val where
  | null : Val
  | bool : Bool → Val
  | num : Int → Val
  | str : String → Val
  | arr : List Val → Val
  | obj : List (String × Val) → Val
deriving Repr, Inhabited

/-- A Python dict with string keys, in insertion order. -/
abbrev RDict := List (String × Val)

/-- Lookup in an insertion-ordered dict / registry (`d[k]` presence test and
read: first — and only — binding of the key). -/
def lookupStr {α : Type} : List (String × α) → String → Option α
  | [], _ => none
  | (k', v) :: rest, k => if k' = k then some v else lookupStr rest k

/-- Python `d.get(k, default)`. -/
def dictGetD (d : RDict) (k : String) (v₀ : Val) : Val :=
  (lookupStr d k).getD v₀

/-- Python `d[k] = v` on an insertion-ordered dict: overwrite in place if the
key exists, else append at the end. -/
def dictSet {α : Type} : List (String × α) → String → α → List (String × α)
  | [], k, v => [(k, v)]
  | (k', v') :: rest, k, v =>
      if k' = k then (k, v) :: rest else (k', v') :: dictSet rest k v

/-- Python truthiness of a JSON-like value (`if step_result:` etc.). -/
def valTruthy : Val → Bool
  | .null => false
  | .bool b => b
  | .num n => n != 0
  | .str s => s ≠ ""
  | .arr xs => ¬ xs.isEmpty
  | .obj kvs => ¬ kvs.isEmpty

mutual
/-- `BaseAgent._serialize_for_json`: recursively normalize a payload for JSONB
storage. UUID and datetime atoms are rendered as strings by the Python code;
in this embedding such atoms are already `Val.str`, so the recursion is the
structural map over dicts and lists. -/
def serializeForJson : Val → Val
  | .obj kvs => .obj (serializeObj kvs)
  | .arr xs => .arr (serializeArr xs)
  | v => v

/-- Dict branch of `_serialize_for_json`. -/
def serializeObj : List (String × Val) → List (String × Val)
  | [] => []
  | (k, v) :: rest => (k, serializeForJson v) :: serializeObj rest

/-- List branch of `_serialize_for_json`. -/
def serializeArr : List Val → List Val
  | [] => []
  | v :: rest => serializeForJson v :: serializeArr rest
end

/-- One row of the `agent_logs` table (`models.AgentLog`): the ExecutionRecord
of the spec. `workflow_id` is nullable (`ForeignKey(..., nullable=True)`).
`execution_time_ms` and `created_at` are wall-clock data, not modelled. -/
structure ExecutionRecord where
  workflow_id : Option Nat
  agent_type : String
  action : String
  input_data : Val
  output_data : Val
  status : String
  error_message : Option String
deriving Repr

/-- An audit-write attempt made by `BaseAgent._log_execution`: the record it
constructed, and whether the database commit succeeded (`persisted`). -/
structure LogAttempt where
  record : ExecutionRecord
  persisted : Bool
deriving Repr

/-- `BaseAgent._log_execution`. It checks whether the referenced workflow row
exists and stores `NULL` in `workflow_id` if not; serializes the snapshots
(`input_data or {}` / `output_data or {}`); and never raises: both the commit
failure and the session-creation failure are caught and only logged
(`# Don't raise - logging failure shouldn't break workflow`). The two failure
layers are collapsed into the single parameter `dbWriteOk`. -/
def logExecution (agent_type : String) (workflowExists : Bool) (dbWriteOk : Bool)
    (workflow_id : Nat) (action : String) (input_data : Val)
    (output_data : Option Val) (status : String) (error_message : Option String) :
    LogAttempt :=
  { record :=
      { workflow_id := if workflowExists then some workflow_id else none
        agent_type := agent_type
        action := action
        input_data := serializeForJson input_data
        output_data := serializeForJson (output_data.getD (Val.obj []))
        status := status
        error_message := error_message }
    persisted := dbWriteOk }

/-- `BaseAgent.execute`: run the wrapped `process` outcome; on success log a
`success` record and return the result unchanged; on failure log a `failed`
record carrying `str(e)` and re-raise the original error. The call to
`_log_execution` on the failure path is additionally wrapped in try/except in
the source; `_log_execution` itself never raises, so `execute` is total in its
audit behaviour. Returns the call outcome and the audit-write attempts made
(exactly one per invocation). -/
def agentExecute (agent_type : String) (workflowExists dbWriteOk : Bool)
    (workflow_id : Nat) (input_data : Val) (processResult : Except String RDict) :
    Except String RDict × List LogAttempt :=
  match processResult with
  | .ok result =>
      (.ok result,
       [logExecution agent_type workflowExists dbWriteOk workflow_id "process"
          input_data (some (Val.obj result)) "success" none])
  | .error e =>
      (.error e,
       [logExecution agent_type workflowExists dbWriteOk workflow_id "process"
          input_data none "failed" (some e)])

/-! ## Workflow engine (`orchestrator.py`) -/

/-- The `WorkflowStatus` enum of `orchestrator.py`. -/
inductive WorkflowStatus where
  | started
  | validation_in_progress
  | validation_completed
  | account_setup_in_progress
  | account_setup_completed
  | scheduling_in_progress
  | scheduling_completed
  | notification_in_progress
  | notification_completed
  | completed
  | failed
deriving Repr, DecidableEq

/-- The `.value` string of each `WorkflowStatus` member. -/
def WorkflowStatus.value : WorkflowStatus → String
  | .started => "started"
  | .validation_in_progress => "validation_in_progress"
  | .validation_completed => "validation_completed"
  | .account_setup_in_progress => "account_setup_in_progress"
  | .account_setup_completed => "account_setup_completed"
  | .scheduling_in_progress => "scheduling_in_progress"
  | .scheduling_completed => "scheduling_completed"
  | .notification_in_progress => "notification_in_progress"
  | .notification_completed => "notification_completed"
  | .completed => "completed"
  | .failed => "failed"

/-- The mutable columns of an `onboarding_workflows` row that the engine
updates (`models.OnboardingWorkflow.status` / `.current_step`). -/
structure WorkflowRow where
  status : String
  current_step : String
deriving Repr, DecidableEq

/-- `OnboardingOrchestrator._update_workflow_status`: store the status string
and update `current_step` by the if/elif chain — the four `*_IN_PROGRESS`
statuses store their step's name, `COMPLETED` stores `"completed"`, `FAILED`
stores `"failed"`, and every other status leaves `current_step` unchanged. -/
def updateWorkflowStatus (row : WorkflowRow) (status : WorkflowStatus) : WorkflowRow :=
  let cur :=
    if status = .validation_in_progress then "validation"
    else if status = .account_setup_in_progress then "account_setup"
    else if status = .scheduling_in_progress then "scheduling"
    else if status = .notification_in_progress then "notification"
    else if status = .completed then "completed"
    else if status = .failed then "failed"
    else row.current_step
  { status := status.value, current_step := cur }

/-- One entry of `self.workflow_steps`: static step configuration. -/
structure StepConfig where
  name : String
  agentType : String
  inProgress : WorkflowStatus
  completion : WorkflowStatus
deriving Repr

/-- An agent's `process(context) -> result` domain function for one run:
context dict in, result dict out, or a raised error (as `str(e)`). -/
abbrev Process := RDict → Except String RDict

/-- A configured step together with the behaviour its agent's `process`
realizes in the run under consideration. -/
structure StepRT where
  cfg : StepConfig
  process : Process

/-- The context-merge block of `_execute_workflow`: store the step result
under `"{step_name}_result"`, then promote the well-known fields of the
`account_setup` and `scheduling` results (guarded by Python truthiness of the
result dict). -/
def mergeStepResult (step_name : String) (acc : RDict) (step_result : RDict) : RDict :=
  let acc := dictSet acc (step_name ++ "_result") (Val.obj step_result)
  let acc :=
    if step_name = "account_setup" ∧ ¬ step_result.isEmpty then
      dictSet
        (dictSet
          (dictSet acc "account_data" (dictGetD step_result "account_details" (Val.obj [])))
          "username" (dictGetD step_result "username" (Val.str "")))
        "permissions" (dictGetD step_result "permissions" (Val.arr []))
    else acc
  if step_name = "scheduling" ∧ ¬ step_result.isEmpty then
    dictSet acc "calendar_data"
      (Val.obj [("events", dictGetD step_result "events" (Val.arr [])),
                ("scheduled_events", dictGetD step_result "events" (Val.arr []))])
  else acc

/-- The engine-visible state threaded through `_execute_workflow`: the
workflow row, the trace of rows after each status update (earliest first,
starting with the row as created), the audit-write attempts in order, the
`workflow_results` dict, the accumulated context, and the number of
`agent.execute` invocations made. -/
structure PipeState where
  row : WorkflowRow
  trace : List WorkflowRow
  logs : List LogAttempt
  results : RDict
  ctx : RDict
  attempted : Nat

/-- One iteration of the `for i, step in enumerate(self.workflow_steps)` loop
body of `_execute_workflow`: set the step's in-progress status, invoke the
agent through `BaseAgent.execute`, and either merge the result and set the
completion status, or set `FAILED` and re-raise (`Option String` is the
propagating exception). The pipeline runs against the workflow row created by
`start`, so the audit writes see an existing workflow and (in the nominal run
modelled here) a healthy store. -/
def execStep (workflow_id : Nat) (st : PipeState) (step : StepRT) :
    PipeState × Option String :=
  let row₁ := updateWorkflowStatus st.row step.cfg.inProgress
  let trace₁ := st.trace ++ [row₁]
  match agentExecute step.cfg.agentType true true workflow_id (Val.obj st.ctx)
      (step.process st.ctx) with
  | (.ok step_result, atts) =>
      let results := dictSet st.results step.cfg.name (Val.obj step_result)
      let ctx := mergeStepResult step.cfg.name st.ctx step_result
      let row₂ := updateWorkflowStatus row₁ step.cfg.completion
      ({ row := row₂, trace := trace₁ ++ [row₂], logs := st.logs ++ atts,
         results := results, ctx := ctx, attempted := st.attempted + 1 }, none)
  | (.error e, atts) =>
      let row₂ := updateWorkflowStatus row₁ .failed
      ({ row := row₂, trace := trace₁ ++ [row₂], logs := st.logs ++ atts,
         results := st.results, ctx := st.ctx, attempted := st.attempted + 1 }, some e)

/-- The step loop of `_execute_workflow`: steps run strictly in order; the
first raised error stops the loop (later steps are never attempted) and
propagates. -/
def runSteps (workflow_id : Nat) (st : PipeState) : List StepRT → PipeState × Option String
  | [] => (st, none)
  | step :: rest =>
      match execStep workflow_id st step with
      | (st', none) => runSteps workflow_id st' rest
      | (st', some e) => (st', some e)

/-- The workflow row as `_create_workflow_record` creates it: status
`"started"`, `current_step = "validation"`. -/
def initialWorkflowRow : WorkflowRow :=
  { status := WorkflowStatus.started.value, current_step := "validation" }

/-- The engine state at the top of `_execute_workflow`:
`accumulated_data = {"employee_data": employee_data, "employee_id": employee_id}`,
no results, no audit writes yet. -/
def initialPipeState (employee_data : List (String × String)) (employee_id : Nat) :
    PipeState :=
  { row := initialWorkflowRow
    trace := [initialWorkflowRow]
    logs := []
    results := []
    ctx := [("employee_data", Val.obj (employee_data.map (fun p => (p.1, Val.str p.2)))),
            ("employee_id", Val.num employee_id)]
    attempted := 0 }

/-- `OnboardingOrchestrator.start_onboarding_workflow`, from the point where
the employee and workflow rows have been created (their ids are parameters).
Runs `_execute_workflow` over the configured steps; on success performs the
final `COMPLETED` status update; on any raised error performs the (second)
`FAILED` status update of the `except` block and re-raises. Employee-data
values are strings at this boundary (see `main.py`, which passes
`{name, email, role, department, start_date}` with
`start_date.isoformat()`). -/
def startOnboardingRun (workflow_id : Nat) (employee_data : List (String × String))
    (employee_id : Nat) (steps : List StepRT) : PipeState × Option String :=
  match runSteps workflow_id (initialPipeState employee_data employee_id) steps with
  | (st, none) =>
      let row := updateWorkflowStatus st.row .completed
      ({ st with row := row, trace := st.trace ++ [row] }, none)
  | (st, some e) =>
      let row := updateWorkflowStatus st.row .failed
      ({ st with row := row, trace := st.trace ++ [row] }, some e)

/-- The concrete `self.workflow_steps` configuration of the orchestrator,
parameterized by the behaviour each agent's `process` realizes in the run. -/
def workflowSteps (vp ap sp np : Process) : List StepRT :=
  [ { cfg := { name := "validation", agentType := "validator",
               inProgress := .validation_in_progress, completion := .validation_completed },
      process := vp },
    { cfg := { name := "account_setup", agentType := "account_setup",
               inProgress := .account_setup_in_progress, completion := .account_setup_completed },
      process := ap },
    { cfg := { name := "scheduling", agentType := "scheduler",
               inProgress := .scheduling_in_progress, completion := .scheduling_completed },
      process := sp },
    { cfg := { name := "notification", agentType := "notifier",
               inProgress := .notification_in_progress, completion := .notification_completed },
      process := np } ]

/-! ## Agent-to-agent communication bus (`communication/a2a_system.py`) -/

/-- The `MessageType` enum. -/
inductive MessageType where
  | request
  | response
  | notification_kind
  | error_kind
deriving Repr, DecidableEq

/-- The `A2AMessage` dataclass (the envelope). `target_agent = none` means
broadcast. `timestamp` is wall-clock data, not modelled. -/
structure A2AMessage where
  id : String
  method : String
  params : Val
  message_type : MessageType
  source_agent : Option String
  target_agent : Option String
deriving Repr

/-- A registry entry (`agent_info`): the bus only ever reads its
`"http_endpoint"` key, so the entry is modelled by that optional endpoint
(`none` ↔ the key is absent from the info dict). `last_seen` is wall-clock
data, not modelled. -/
structure AgentInfo where
  http_endpoint : Option String
deriving Repr

/-- The run-relevant state of `A2ACommunicationBus` plus its Redis
collaborator: the in-memory `agent_registry` (an insertion-ordered dict), the
per-agent Redis queues (each list has its most recently `lpush`ed message at
the head), and the trace of HTTP POST attempts (endpoint, envelope) made via
`_send_http_message`. -/
structure BusState where
  registry : List (String × AgentInfo)
  queues : List (String × List A2AMessage)
  httpCalls : List (String × A2AMessage)
deriving Repr

/-- Behaviour of the HTTP collaborator during the run: what the 30-second
bounded `client.post(endpoint, json=message.to_dict())` returns for a given
endpoint and envelope — the callee's JSON response, or a raised transport
error (connect error, timeout, `raise_for_status`) as `str(e)`. -/
abbrev HttpFn := String → A2AMessage → Except String Val

/-- Seconds of the fixed `timeout=30.0` bound on the HTTP transport. -/
def httpTimeoutSeconds : Nat := 30

/-- `A2ACommunicationBus._send_http_message`: one HTTP POST attempt carrying
the envelope; the result is the callee's response (or the raised transport
error). The attempt is appended to the `httpCalls` trace. -/
def sendHttpMessage (http : HttpFn) (st : BusState) (message : A2AMessage)
    (endpoint : String) : Except String Val × BusState :=
  (http endpoint message,
   { st with httpCalls := st.httpCalls ++ [(endpoint, message)] })

/-- Redis `lpush queue_name message` (`_send_queue_message`): prepend to the
named list, creating it if absent. -/
def pushQueue (st : BusState) (queue_name : String) (message : A2AMessage) : BusState :=
  match lookupStr st.queues queue_name with
  | some msgs => { st with queues := dictSet st.queues queue_name (message :: msgs) }
  | none => { st with queues := dictSet st.queues queue_name [message] }

/-- `A2ACommunicationBus._send_direct_message`: raise
`ValueError(f"Target agent {target_agent} not registered")` if the target is
not a key of the registry (an unset target compares unequal to every string
key, as `None` does in Python); otherwise deliver over HTTP if the entry has
an `"http_endpoint"`, else `lpush` onto `agent_{target}_queue` and return the
`{"status": "queued", "queue": queue_name}` acknowledgment immediately. -/
def sendDirectMessage (http : HttpFn) (st : BusState) (message : A2AMessage) :
    Except String Val × BusState :=
  match message.target_agent with
  | none => (.error "Target agent None not registered", st)
  | some target =>
      match lookupStr st.registry target with
      | none => (.error ("Target agent " ++ target ++ " not registered"), st)
      | some agent_info =>
          match agent_info.http_endpoint with
          | some endpoint => sendHttpMessage http st message endpoint
          | none =>
              let queue_name := "agent_" ++ target ++ "_queue"
              (.ok (Val.obj [("status", Val.str "queued"), ("queue", Val.str queue_name)]),
               pushQueue st queue_name message)

/-- The `for agent_name in self.agent_registry` loop of `_broadcast_message`,
threading the mutated envelope, the bus state and the `results` dict through
the registry keys in order. Each recipient other than the declared source has
`message.target_agent` overwritten to its name before `_send_direct_message`
is invoked; a per-recipient exception is captured as
`results[agent_name] = {"error": str(e)}` and the loop continues. -/
def broadcastLoop (http : HttpFn) : List String → BusState → A2AMessage →
    List (String × Val) → List (String × Val) × BusState × A2AMessage
  | [], st, message, results => (results, st, message)
  | agent_name :: rest, st, message, results =>
      if message.source_agent = some agent_name then
        broadcastLoop http rest st message results
      else
        let message' := { message with target_agent := some agent_name }
        match sendDirectMessage http st message' with
        | (.ok r, st') =>
            broadcastLoop http rest st' message' (results ++ [(agent_name, r)])
        | (.error e, st') =>
            broadcastLoop http rest st' message'
              (results ++ [(agent_name, Val.obj [("error", Val.str e)])])

/-- `A2ACommunicationBus._broadcast_message`: deliver to every registered
agent except `message.source_agent`, collecting per-recipient outcomes, and
return `{"broadcast_results": results}`. The function always returns normally
(every per-recipient exception is caught inside the loop). The final
component is the caller's message object as the loop leaves it. -/
def broadcastMessage (http : HttpFn) (st : BusState) (message : A2AMessage) :
    Val × BusState × A2AMessage :=
  let (results, st', message') :=
    broadcastLoop http (st.registry.map Prod.fst) st message []
  (Val.obj [("broadcast_results", Val.obj results)], st', message')

/-- The recipients of a broadcast: every registered name, in registry order,
except the message's declared source. -/
def broadcastRecipients (st : BusState) (message : A2AMessage) : List String :=
  (st.registry.map Prod.fst).filter (fun n => message.source_agent ≠ some n)

/-! ## Validator agent (`agents/validator_agent.py`)

The validator's field values are strings at this boundary: `main.py` builds
`employee_data` as a dict of five string fields before calling the
orchestrator (`start_date` via `.isoformat()`). String operations are
modelled over their ASCII behaviour. -/

/-- Python `str.split()` with no argument: split on runs of whitespace,
dropping empty pieces. -/
def pySplit (s : String) : List String :=
  (s.split (fun c => c.isWhitespace)).filter (fun w => w ≠ "")

/-- Character-list worker for `pyTitle`, tracking whether the previous
character was a letter. -/
def pyTitleGo : Bool → List Char → List Char
  | _, [] => []
  | prevAlpha, c :: cs =>
      if c.isAlpha then
        (if prevAlpha then c.toLower else c.toUpper) :: pyTitleGo true cs
      else
        c :: pyTitleGo false cs

/-- Python `str.title()`: uppercase the first letter of every maximal letter
run, lowercase the rest (so `"john o'connor".title() = "John O'Connor"`). -/
def pyTitle (s : String) : String := ⟨pyTitleGo false s.data⟩

/-- `ValidatorAgent._clean_name` (also the shared title-casing of
`_clean_role` / `_clean_department`):
`" ".join(word.strip().title() for word in str(name).split() if word.strip())`.
Words produced by `split()` are nonempty and whitespace-free, so the inner
`strip()` is the identity and the `if` filter passes every word. -/
def cleanName (name : String) : String :=
  String.intercalate " " ((pySplit name).map pyTitle)

/-- `ValidatorAgent._clean_email`: `str(email).strip().lower()`. -/
def cleanEmail (email : String) : String := email.trim.toLower

/-- Character class `[a-zA-Z0-9._%+-]` of the email regex's local part. -/
def isEmailLocalChar (c : Char) : Bool :=
  c.isAlpha || c.isDigit || c = '.' || c = '_' || c = '%' || c = '+' || c = '-'

/-- Character class `[a-zA-Z0-9.-]` of the email regex's domain part. -/
def isEmailDomainChar (c : Char) : Bool :=
  c.isAlpha || c.isDigit || c = '.' || c = '-'

/-- `ValidatorAgent._is_valid_email`: full anchored match of
`^[a-zA-Z0-9._%+-]+@[a-zA-Z0-9.-]+\.[a-zA-Z]{2,}$`. No character class
contains `@`, so a match forces exactly one `@`; the trailing `[a-zA-Z]{2,}`
contains no dot, so the backtracking choice of `\.` must be the last dot of
the domain. This decision procedure implements exactly that normal form. -/
def isValidEmail (email : String) : Bool :=
  match email.splitOn "@" with
  | [localPart, domain] =>
      match (domain.splitOn ".").reverse with
      | [] => false
      | [_] => false
      | tld :: revInit =>
          let beforeLastDot := String.intercalate "." revInit.reverse
          !localPart.isEmpty && localPart.all isEmailLocalChar &&
          !beforeLastDot.isEmpty && beforeLastDot.all isEmailDomainChar &&
          decide (2 ≤ tld.length) && tld.all Char.isAlpha
  | _ => false

/-- `ValidatorAgent._similarity_ratio`: Jaccard similarity of the word sets,
as an exact rational. The Python code compares the float quotient with the
literal `0.8`; for the small word-set fractions arising here the exact
comparison `> 4/5` agrees with the float comparison (the only quotient whose
double equals the double of `0.8` is `4/5` itself, on which both comparisons
are false). -/
def similarityRatio (a b : String) : ℚ :=
  let set_a := (pySplit a).dedup
  let set_b := (pySplit b).dedup
  if set_a.isEmpty && set_b.isEmpty then 1
  else
    let intersection := (set_a.filter (fun w => w ∈ set_b)).length
    let union := set_a.length + set_b.length - intersection
    if union > 0 then (intersection : ℚ) / (union : ℚ) else 0

/-- `self.valid_roles` of the validator. -/
def validRoles : List String :=
  ["Software Engineer", "Product Manager", "Designer", "QA Engineer",
   "DevOps Engineer", "Data Scientist", "Marketing Manager",
   "Sales Representative", "HR Specialist", "Finance Analyst"]

/-- `self.valid_departments` of the validator. -/
def validDepartments : List String :=
  ["Engineering", "Product", "Design", "QA", "DevOps",
   "Data Science", "Marketing", "Sales", "HR", "Finance"]

/-- `ValidatorAgent._clean_role`: title-clean, then return the first standard
role whose similarity with the cleaned string exceeds 0.8, else the cleaned
string. -/
def cleanRole (role : String) : String :=
  let cleaned := cleanName role
  match validRoles.find? (fun std => similarityRatio cleaned.toLower std.toLower > (4 / 5 : ℚ)) with
  | some std => std
  | none => cleaned

/-- `ValidatorAgent._clean_department`, same shape as `_clean_role`. -/
def cleanDepartment (department : String) : String :=
  let cleaned := cleanName department
  match validDepartments.find? (fun std => similarityRatio cleaned.toLower std.toLower > (4 / 5 : ℚ)) with
  | some std => std
  | none => cleaned

/-- A `datetime.date`. -/
structure PyDate where
  year : Nat
  month : Nat
  day : Nat
deriving Repr, DecidableEq

/-- Gregorian leap-year rule used by `datetime`. -/
def isLeapYear (y : Nat) : Bool :=
  y % 4 = 0 && (y % 100 ≠ 0 || y % 400 = 0)

/-- Days in a month, as validated by the `datetime` constructor. -/
def daysInMonth (y m : Nat) : Nat :=
  if m = 2 then (if isLeapYear y then 29 else 28)
  else if m = 4 ∨ m = 6 ∨ m = 9 ∨ m = 11 then 30
  else 31

/-- The `%Y` token of `strptime`: exactly four digits. -/
def parseYear4 (t : String) : Option Nat :=
  if t.length = 4 then t.toNat? else none

/-- The `%m` / `%d` tokens of `strptime`: one or two digits, nonzero, bounded
by 12 resp. 31. -/
def parseField2 (maxVal : Nat) (t : String) : Option Nat :=
  if t.length = 1 ∨ t.length = 2 then
    match t.toNat? with
    | some v => if 1 ≤ v ∧ v ≤ maxVal then some v else none
    | none => none
  else none

/-- Validity check of the `datetime` constructor: `MINYEAR ≤ year` and the
day in range for the month (a violation raises `ValueError`, which
`_parse_date` catches before trying the next format). -/
def mkValidDate (y m d : Nat) : Option PyDate :=
  if 1 ≤ y ∧ 1 ≤ d ∧ d ≤ daysInMonth y m then some ⟨y, m, d⟩ else none

/-- Field order of a `strptime` date format. -/
inductive DateFieldOrder where
  | ymd
  | mdy
  | dmy
deriving Repr, DecidableEq

/-- `datetime.strptime(s, fmt).date()` for one of the six formats of
`_parse_date`: the string must split on the separator into exactly three
fields (full-match semantics: leftover text raises), each field must match
its token, and the resulting date must be constructible. -/
def tryStrptime (order : DateFieldOrder) (sep : String) (s : String) : Option PyDate :=
  match s.splitOn sep with
  | [a, b, c] =>
      let fields :=
        match order with
        | .ymd => (a, b, c)
        | .mdy => (c, a, b)
        | .dmy => (c, b, a)
      match parseYear4 fields.1, parseField2 12 fields.2.1, parseField2 31 fields.2.2 with
      | some y, some m, some d => mkValidDate y m d
      | _, _, _ => none
  | _ => none

/-- The format list of `_parse_date`, in trial order:
`%Y-%m-%d`, `%m/%d/%Y`, `%d/%m/%Y`, `%Y/%m/%d`, `%m-%d-%Y`, `%d-%m-%Y`. -/
def parseDateFormats : List (DateFieldOrder × String) :=
  [(.ymd, "-"), (.mdy, "/"), (.dmy, "/"), (.ymd, "/"), (.mdy, "-"), (.dmy, "-")]

/-- Try the formats in order, returning the first that parses. -/
def tryFormats (s : String) : List (DateFieldOrder × String) → Option PyDate
  | [] => none
  | (o, sep) :: rest =>
      match tryStrptime o sep s with
      | some d => some d
      | none => tryFormats s rest

/-- `ValidatorAgent._parse_date` on a string input: strip, then try the six
formats; `none` corresponds to the final
`raise ValueError(f"Unable to parse date: {date_str}")`. -/
def parseDate (date_str : String) : Option PyDate :=
  tryFormats date_str.trim parseDateFormats

/-- `datetime.date` ordering (`start_date < date.today()`). -/
def dateLt (a b : PyDate) : Bool :=
  decide (a.year < b.year ∨ (a.year = b.year ∧
    (a.month < b.month ∨ (a.month = b.month ∧ a.day < b.day))))

/-- Zero-padded decimal rendering, for `date.isoformat()`. -/
def padNat (width n : Nat) : String :=
  let s := toString n
  String.mk (List.replicate (width - s.length) '0') ++ s

/-- `date.isoformat()`: `YYYY-MM-DD`. -/
def dateIso (d : PyDate) : String :=
  padNat 4 d.year ++ "-" ++ padNat 2 d.month ++ "-" ++ padNat 2 d.day

/-- `self.required_fields` of the validator. -/
def validatorRequiredFields : List String :=
  ["name", "email", "role", "department", "start_date"]

/-- The `validation_summary` dict, once filled in at the end of `process`. -/
structure ValidationSummary where
  total_fields : Nat
  valid_fields : Nat
  error_count : Nat
  warning_count : Nat
deriving Repr, DecidableEq

/-- The `validation_results` dict returned by `ValidatorAgent.process`.
`validation_summary = none` models the initial empty `{}`, which is what the
missing-required-fields early return leaves in place. -/
structure ValidationResult where
  is_valid : Bool
  errors : List String
  warnings : List String
  cleaned_data : List (String × String)
  validation_summary : Option ValidationSummary
deriving Repr, DecidableEq

/-- `ValidatorAgent.process` on the `employee_data` dict. It never raises:
bad input is reported inside the returned dict. A missing or empty required
field (`field not in employee_data or not employee_data[field]`) appends a
`Missing required field` error and sets `is_valid = False`, and the function
returns early, before any cleaning, with `cleaned_data` and
`validation_summary` still empty. Otherwise each field is cleaned and
validated in source order (name, email, role, department, start date);
`is_valid` ends up false exactly when some error was appended. `today` is
`date.today()` at the time of the run. -/
def validatorProcess (today : PyDate) (employee_data : List (String × String)) :
    ValidationResult :=
  let missing := validatorRequiredFields.filter (fun f =>
    match lookupStr employee_data f with
    | none => true
    | some v => v = "")
  if ¬ missing.isEmpty then
    { is_valid := false
      errors := missing.map (fun f => "Missing required field: " ++ f)
      warnings := []
      cleaned_data := []
      validation_summary := none }
  else
    let name := cleanName ((lookupStr employee_data "name").getD "")
    let nameBad := name.length < 2
    let email := cleanEmail ((lookupStr employee_data "email").getD "")
    let emailBad := isValidEmail email = false
    let role := cleanRole ((lookupStr employee_data "role").getD "")
    let roleWarn := role ∉ validRoles
    let department := cleanDepartment ((lookupStr employee_data "department").getD "")
    let deptWarn := department ∉ validDepartments
    let rawDate := ((lookupStr employee_data "start_date").getD "").trim
    let dateParsed := parseDate rawDate
    let errors :=
      (if nameBad then ["Name must be at least 2 characters long"] else []) ++
      (if emailBad then ["Invalid email format"] else []) ++
      (match dateParsed with
       | none => ["Invalid start date: Unable to parse date: " ++ rawDate]
       | some _ => [])
    let warnings :=
      (if roleWarn then ["Unusual role: " ++ role ++ ". Consider using standard roles."] else []) ++
      (if deptWarn then ["Unusual department: " ++ department ++ ". Consider using standard departments."] else []) ++
      (match dateParsed with
       | some d => if dateLt d today then ["Start date is in the past"] else []
       | none => [])
    let cleaned :=
      (if nameBad then [] else [("name", name)]) ++
      (if emailBad then [] else [("email", email)]) ++
      [("role", role), ("department", department)] ++
      (match dateParsed with
       | some d => [("start_date", dateIso d)]
       | none => [])
    { is_valid := errors.isEmpty
      errors := errors
      warnings := warnings
      cleaned_data := cleaned
      validation_summary := some
        { total_fields := validatorRequiredFields.length
          valid_fields := cleaned.length
          error_count := errors.length
          warning_count := warnings.length } }

/-- Encode the `validation_results` dict as a JSON-like value, in its
insertion order. -/
def validationResultToDict (r : ValidationResult) : RDict :=
  [("is_valid", Val.bool r.is_valid),
   ("errors", Val.arr (r.errors.map Val.str)),
   ("warnings", Val.arr (r.warnings.map Val.str)),
   ("cleaned_data", Val.obj (r.cleaned_data.map (fun p => (p.1, Val.str p.2)))),
   ("validation_summary",
    match r.validation_summary with
    | none => Val.obj []
    | some s => Val.obj
        [("total_fields", Val.num s.total_fields),
         ("valid_fields", Val.num s.valid_fields),
         ("error_count", Val.num s.error_count),
         ("warning_count", Val.num s.warning_count)])]

/-- `ValidatorAgent.process` as a pipeline step: reads
`input_data.get("employee_data", {})` (a dict of string field values at this
boundary) and always returns normally. -/
def validatorAgentProcess (today : PyDate) : Process := fun input_data =>
  let employee_data :=
    match lookupStr input_data "employee_data" with
    | some (Val.obj kvs) =>
        kvs.filterMap (fun p =>
          match p.2 with
          | Val.str s => some (p.1, s)
          | _ => none)
    | _ => []
  .ok (validationResultToDict (validatorProcess today employee_data))

/-! ## Bulk processing (`OnboardingOrchestrator.process_bulk_employees`) -/

/-- The summary dict returned by `process_bulk_employees`. -/
structure BulkResult where
  total_processed : Nat
  successful : Nat
  failed : Nat
  successful_workflows : List Val
  failed_workflows : List Val
deriving Repr

/-- The categorization loop of `process_bulk_employees`: walk the
(input, outcome) pairs in task order; a success appends the result to
`successful`, an exception appends `{"employee_data": input, "error": str(e)}`
to `failed`. -/
def categorizeBulk : List (Val × Except String Val) → List Val × List Val
  | [] => ([], [])
  | (employee_data, result) :: rest =>
      let (succ, fail) := categorizeBulk rest
      match result with
      | .ok r => (r :: succ, fail)
      | .error e =>
          (succ, Val.obj [("employee_data", employee_data), ("error", Val.str e)] :: fail)

/-- `OnboardingOrchestrator.process_bulk_employees`: launch
`start_onboarding_workflow` for every item (`asyncio.gather` with
`return_exceptions=True` preserves task order and captures per-item
exceptions), categorize, and summarize. `start` is the per-item behaviour of
`start_onboarding_workflow` in this run; items are independent workflow
executions. -/
def processBulkEmployees (start : Val → Except String Val) (employees_data : List Val) :
    BulkResult :=
  let results := employees_data.map start
  let categorized := categorizeBulk (employees_data.zip results)
  { total_processed := employees_data.length
    successful := categorized.1.length
    failed := categorized.2.length
    successful_workflows := categorized.1
    failed_workflows := categorized.2 }

/-! ## Concrete fixtures for counterexamples and witnesses -/

/-- A concrete failing run: scenario 2 of the spec — the `account_setup`
step raises `"duplicate username"`. -/
def c1Run : PipeState × Option String :=
  startOnboardingRun 1 [("name", "John Doe")] 7
    (workflowSteps (fun _ => .ok []) (fun _ => .error "duplicate username")
      (fun _ => .ok []) (fun _ => .ok []))

/-- A concrete fully successful run through the four configured steps. -/
def c2Run : PipeState × Option String :=
  startOnboardingRun 2 [("name", "Jane Roe")] 8
    (workflowSteps (fun _ => .ok []) (fun _ => .ok []) (fun _ => .ok []) (fun _ => .ok []))

/-- Position of a status string in the configured forward sequence
`started → validation_* → account_setup_* → scheduling_* → notification_* →
completed`, with `failed` off the main track. -/
def statusRank : String → Nat
  | "started" => 0
  | "validation_in_progress" => 1
  | "validation_completed" => 2
  | "account_setup_in_progress" => 3
  | "account_setup_completed" => 4
  | "scheduling_in_progress" => 5
  | "scheduling_completed" => 6
  | "notification_in_progress" => 7
  | "notification_completed" => 8
  | "completed" => 9
  | "failed" => 10
  | _ => 11

/-- The step name the engine associates with each status: the step's name for
its in-progress and completed statuses, the first step for the freshly
created `started` row (as `_create_workflow_record` initializes it), and the
terminal markers for the two terminal statuses. -/
def stepAssociatedWith : String → String
  | "started" => "validation"
  | "validation_in_progress" => "validation"
  | "validation_completed" => "validation"
  | "account_setup_in_progress" => "account_setup"
  | "account_setup_completed" => "account_setup"
  | "scheduling_in_progress" => "scheduling"
  | "scheduling_completed" => "scheduling"
  | "notification_in_progress" => "notification"
  | "notification_completed" => "notification"
  | "completed" => "completed"
  | "failed" => "failed"
  | _ => ""

/-- One admissible transition of the workflow row: either the status advances
to the immediately next status of the configured sequence, or it jumps to
(or stays at) `failed`. In particular the status never regresses. -/
def ForwardStep (a b : WorkflowRow) : Prop :=
  b.status = "failed" ∨ statusRank b.status = statusRank a.status + 1

instance : DecidableRel ForwardStep := fun a b =>
  inferInstanceAs (Decidable (b.status = "failed" ∨ statusRank b.status = statusRank a.status + 1))

/-- A deterministic HTTP collaborator for concrete instances: every endpoint
answers `"pong"`. -/
def httpPong : HttpFn := fun _ _ => .ok (Val.str "pong")

/-- An HTTP collaborator whose every call fails with a timeout. -/
def httpTimeout : HttpFn := fun _ _ => .error "timeout"

/-- A concrete bus: `A` and `C` queue-only, `B` with a synchronous
endpoint. -/
def busExample : BusState :=
  { registry := [("A", ⟨none⟩), ("B", ⟨some "/api/b"⟩), ("C", ⟨none⟩)],
    queues := [], httpCalls := [] }

/-- A concrete bus with three queue-only participants. -/
def queueBusExample : BusState :=
  { registry := [("A", ⟨none⟩), ("B", ⟨none⟩), ("C", ⟨none⟩)],
    queues := [], httpCalls := [] }

/-- A concrete bus with an empty registry. -/
def emptyBusExample : BusState :=
  { registry := [], queues := [], httpCalls := [] }

/-- A concrete envelope from `A` with the given target. -/
def pingMessage (target : Option String) : A2AMessage :=
  { id := "1", method := "ping", params := Val.obj [], message_type := .request,
    source_agent := some "A", target_agent := target }

/-- The per-item `start` behaviour of a concrete mixed batch: item 2 lacks a
required field and fails; every other item succeeds. -/
def bulkStartExample : Val → Except String Val := fun v =>
  match v with
  | .num 2 => .error "Missing required field: name"
  | v => .ok v

/-- A concrete run whose input fails validation: the employee dict is empty,
so all five required fields are missing; the other agents behave nominally. -/
def c8Run : PipeState × Option String :=
  startOnboardingRun 1 [] 7
    (workflowSteps (validatorAgentProcess ⟨2025, 1, 1⟩)
      (fun _ => .ok []) (fun _ => .ok []) (fun _ => .ok []))

/-! ## Helper lemmas -/

theorem lookupStr_dictSet_self {α : Type} (d : List (String × α)) (k : String) (v : α) :
    lookupStr (dictSet d k v) k = some v := by
  induction d with
  | nil => simp [dictSet, lookupStr]
  | cons p rest ih =>
      by_cases h : p.1 = k
      · simp [dictSet, lookupStr, h]
      · simp only [dictSet, h, if_false]
        simpa [lookupStr, h] using ih

theorem lookupStr_dictSet_ne {α : Type} (d : List (String × α)) (k k' : String) (v : α)
    (h : k' ≠ k) : lookupStr (dictSet d k v) k' = lookupStr d k' := by
  have hne : ¬ k = k' := fun hh => h hh.symm
  induction d with
  | nil => simp [dictSet, lookupStr, hne]
  | cons p rest ih =>
      by_cases hp : p.1 = k
      · subst hp
        simp [dictSet, lookupStr, hne]
      · simp only [dictSet, hp, if_false]
        by_cases hp' : p.1 = k'
        · simp [lookupStr, hp']
        · simp [lookupStr, hp', ih]

theorem updateWorkflowStatus_failed (row : WorkflowRow) :
    updateWorkflowStatus row .failed = ⟨"failed", "failed"⟩ := rfl

theorem updateWorkflowStatus_completed (row : WorkflowRow) :
    updateWorkflowStatus row .completed = ⟨"completed", "completed"⟩ := rfl

/-- Characterization of a raising run of the step loop: the loop stops at the
first failing step, the workflow row ends at `("failed", "failed")`, and the
audit attempts are one success record per completed step followed by one
failed record carrying the raised error. -/
theorem runSteps_raise (wf : Nat) :
    ∀ (steps : List StepRT) (st : PipeState) (e : String),
      (runSteps wf st steps).2 = some e →
      (runSteps wf st steps).1.row = ⟨"failed", "failed"⟩ ∧
      ∃ new : List LogAttempt,
        (runSteps wf st steps).1.logs = st.logs ++ new ∧
        1 ≤ new.length ∧ new.length ≤ steps.length ∧
        new.map (fun a => a.record.agent_type) =
          (steps.take new.length).map (fun s => s.cfg.agentType) ∧
        (∀ a ∈ new.dropLast, a.record.status = "success") ∧
        (∃ last, new.getLast? = some last ∧ last.record.status = "failed" ∧
          last.record.error_message = some e) ∧
        (runSteps wf st steps).1.attempted = st.attempted + new.length := by
  intro steps
  induction steps with
  | nil => intro st e h; simp [runSteps] at h
  | cons step rest ih =>
      intro st e h
      rcases hp : step.process st.ctx with e' | r
      · -- the step itself raises: one failed record, loop stops
        simp only [runSteps, execStep, agentExecute, hp] at h ⊢
        have he : e' = e := by simpa using h
        subst he
        refine ⟨updateWorkflowStatus_failed _, ?_⟩
        refine ⟨[logExecution step.cfg.agentType true true wf "process"
          (Val.obj st.ctx) none "failed" (some e')], rfl, ?_, ?_, ?_, ?_, ?_, ?_⟩
        · simp
        · simp
        · simp [logExecution]
        · simp
        · exact ⟨_, rfl, rfl, rfl⟩
        · simp
      · -- the step succeeds: one success record, loop continues
        simp only [runSteps, execStep, agentExecute, hp] at h ⊢
        rcases ih _ e h with ⟨hrow, new', hlogs, hlen1, hlen2, hmap, hsucc, hlast, hatt⟩
        simp only at hlogs hatt
        refine ⟨hrow, logExecution step.cfg.agentType true true wf "process"
          (Val.obj st.ctx) (some (Val.obj r)) "success" none :: new', ?_, ?_, ?_, ?_, ?_, ?_, ?_⟩
        · simpa using hlogs
        · simp
        · simpa using hlen2
        · simpa [logExecution] using hmap
        · rcases new' with _ | ⟨b, tl⟩
          · simp at hlen1
          · intro a ha
            rcases (List.mem_cons).1 (by simpa using ha) with h1 | h1
            · subst h1; rfl
            · exact hsucc a (by simpa using h1)
        · rcases new' with _ | ⟨b, tl⟩
          · simp at hlen1
          · simpa using hlast
        · simp only [List.length_cons] at hatt ⊢
          omega

/-- Characterization of a non-raising run of the step loop: every step
completed, one success record per step. -/
theorem runSteps_ok (wf : Nat) :
    ∀ (steps : List StepRT) (st : PipeState),
      (runSteps wf st steps).2 = none →
      ∃ new : List LogAttempt,
        (runSteps wf st steps).1.logs = st.logs ++ new ∧
        new.length = steps.length ∧
        new.map (fun a => a.record.agent_type) = steps.map (fun s => s.cfg.agentType) ∧
        (∀ a ∈ new, a.record.status = "success") ∧
        (runSteps wf st steps).1.attempted = st.attempted + steps.length := by
  intro steps
  induction steps with
  | nil => intro st _; exact ⟨[], by simp [runSteps], rfl, rfl, by simp, by simp [runSteps]⟩
  | cons step rest ih =>
      intro st h
      rcases hp : step.process st.ctx with e' | r
      · simp [runSteps, execStep, agentExecute, hp] at h
      · simp only [runSteps, execStep, agentExecute, hp] at h ⊢
        rcases ih _ h with ⟨new', hlogs, hlen, hmap, hsucc, hatt⟩
        simp only at hlogs hatt
        refine ⟨logExecution step.cfg.agentType true true wf "process"
          (Val.obj st.ctx) (some (Val.obj r)) "success" none :: new', ?_, ?_, ?_, ?_, ?_⟩
        · simpa using hlogs
        · simpa using hlen
        · simpa [logExecution] using hmap
        · intro a ha
          rcases (List.mem_cons).1 ha with h1 | h1
          · subst h1; rfl
          · exact hsucc a h1
        · simp only [List.length_cons] at hatt ⊢
          omega

/-- One loop iteration makes exactly one `execute` invocation and appends
exactly one audit attempt, on both the success and the failure path. -/
theorem execStep_delta (wf : Nat) (st : PipeState) (step : StepRT) :
    (execStep wf st step).1.logs.length = st.logs.length + 1 ∧
    (execStep wf st step).1.attempted = st.attempted + 1 := by
  rcases hp : step.process st.ctx with e' | r <;>
    simp [execStep, agentExecute, hp]

/-- Audit writes and `execute` invocations grow in lockstep across the step
loop. -/
theorem runSteps_records_eq_attempts (wf : Nat) :
    ∀ (steps : List StepRT) (st : PipeState),
      (runSteps wf st steps).1.logs.length + st.attempted =
        (runSteps wf st steps).1.attempted + st.logs.length := by
  intro steps
  induction steps with
  | nil => intro st; simp [runSteps]; omega
  | cons step rest ih =>
      intro st
      rcases he : execStep wf st step with ⟨st', out⟩
      have hd := execStep_delta wf st step
      rw [he] at hd
      dsimp only at hd
      cases out with
      | some e =>
          simp only [runSteps, he]
          omega
      | none =>
          simp only [runSteps, he]
          have := ih st'
          omega

/-! ## C3: the execution wrapper (`BaseAgent.execute`) -/

/-- C3. Every invocation of the execution wrapper produces exactly one
ExecutionRecord; on success the record has `status = "success"` and the
process result is returned unchanged; on failure the record has
`status = "failed"` carrying the error text and the original error is
re-raised (the wrapper's outcome always equals the wrapped outcome). Across a
pipeline run, the number of records produced equals the number of `execute`
invocations, so steps never attempted produce no record. -/
theorem execute_wrapper_single_record :
    (∀ (agent_type : String) (we db : Bool) (wf : Nat) (input : Val)
        (pr : Except String RDict),
      (agentExecute agent_type we db wf input pr).2.length = 1 ∧
      (agentExecute agent_type we db wf input pr).1 = pr ∧
      (∀ r, pr = .ok r → ∃ a, (agentExecute agent_type we db wf input pr).2 = [a] ∧
        a.record.status = "success" ∧ a.record.error_message = none) ∧
      (∀ e, pr = .error e → ∃ a, (agentExecute agent_type we db wf input pr).2 = [a] ∧
        a.record.status = "failed" ∧ a.record.error_message = some e)) ∧
    (∀ (wf : Nat) (st : PipeState) (steps : List StepRT),
      (runSteps wf st steps).1.logs.length + st.attempted =
        (runSteps wf st steps).1.attempted + st.logs.length) := by
  constructor
  · intro agent_type we db wf input pr
    cases pr with
    | ok r =>
        refine ⟨rfl, rfl, ?_, ?_⟩
        · intro r' _
          exact ⟨_, rfl, rfl, rfl⟩
        · intro e he
          simp at he
    | error e =>
        refine ⟨rfl, rfl, ?_, ?_⟩
        · intro r' hr
          simp at hr
        · intro e' he
          have : e = e' := by simpa using he
          subst this
          exact ⟨_, rfl, rfl, rfl⟩
  · exact fun wf st steps => runSteps_records_eq_attempts wf steps st

/-- Witness for C3 at concrete inputs: a successful call and a failing call,
with the hypotheses of the inner implications discharged. -/
theorem execute_wrapper_single_record_witness :
    (agentExecute "validator" true true 1 (Val.obj []) (.ok [])).2.length = 1 ∧
    (agentExecute "validator" true true 1 (Val.obj []) (.error "boom")).1 = .error "boom" ∧
    (∃ a, (agentExecute "validator" true true 1 (Val.obj []) (.error "boom")).2 = [a] ∧
      a.record.status = "failed" ∧ a.record.error_message = some "boom") :=
  ⟨(execute_wrapper_single_record.1 "validator" true true 1 (Val.obj []) (.ok [])).1,
   (execute_wrapper_single_record.1 "validator" true true 1 (Val.obj []) (.error "boom")).2.1,
   (execute_wrapper_single_record.1 "validator" true true 1 (Val.obj [])
     (.error "boom")).2.2.2 "boom" rfl⟩

/-! ## C4: audit-write failures are isolated; orphan records keep a null reference -/

/-- C4. A failure of the audit write itself never changes the wrapper's
outcome: with the database write failing (`db = false`) the wrapped result or
error is still returned or raised, and the outcome is the same for any write
behaviour. When the referenced workflow does not exist, the record is still
produced with a null `workflow_id` and is stored whenever the write itself
succeeds, rather than dropped. -/
theorem audit_write_isolation :
    ∀ (agent_type : String) (we db : Bool) (wf : Nat) (input : Val)
      (pr : Except String RDict),
      (agentExecute agent_type we false wf input pr).1 = pr ∧
      (agentExecute agent_type we db wf input pr).1 =
        (agentExecute agent_type we true wf input pr).1 ∧
      (∀ a ∈ (agentExecute agent_type false db wf input pr).2,
        a.record.workflow_id = none ∧ a.persisted = db) := by
  intro agent_type we db wf input pr
  cases pr with
  | ok r =>
      refine ⟨rfl, rfl, ?_⟩
      intro a ha
      have : a = logExecution agent_type false db wf "process" input
          (some (Val.obj r)) "success" none := by simpa [agentExecute] using ha
      subst this
      exact ⟨rfl, rfl⟩
  | error e =>
      refine ⟨rfl, rfl, ?_⟩
      intro a ha
      have : a = logExecution agent_type false db wf "process" input
          none "failed" (some e) := by simpa [agentExecute] using ha
      subst this
      exact ⟨rfl, rfl⟩

/-- Witness for C4 at concrete inputs: an audit-write failure leaves the
outcome unchanged, and a record for a nonexistent workflow is stored with a
null reference. -/
theorem audit_write_isolation_witness :
    (agentExecute "scheduler" true false 9 (Val.obj []) (.ok [("x", Val.num 1)])).1 =
      .ok [("x", Val.num 1)] ∧
    (∀ a ∈ (agentExecute "scheduler" false true 9 (Val.obj []) (.ok [("x", Val.num 1)])).2,
      a.record.workflow_id = none ∧ a.persisted = true) :=
  ⟨(audit_write_isolation "scheduler" true false 9 (Val.obj []) (.ok [("x", Val.num 1)])).1,
   (audit_write_isolation "scheduler" false true 9 (Val.obj []) (.ok [("x", Val.num 1)])).2.2⟩

/-! ## C1: a step failure fails the workflow -/


/-- Counterexample to C1 as stated. When step 2 (`account_setup`) raises
`"duplicate username"`, the failure semantics hold (status `failed`, records
for steps 1..2 only, step 2's record failed with the message, error
re-raised) — but `current_step` is `"failed"`, not the failing step's name
`"account_setup"`: `_update_workflow_status` overwrites `current_step` with
the marker `"failed"` on the `FAILED` transition. -/
theorem step_failure_current_step_counterexample :
    c1Run.2 = some "duplicate username" ∧
    c1Run.1.row.status = "failed" ∧
    c1Run.1.logs.map (fun a => (a.record.agent_type, a.record.status)) =
      [("validator", "success"), ("account_setup", "failed")] ∧
    c1Run.1.row.current_step ≠ "account_setup" ∧
    c1Run.1.row.current_step = "failed" := by
  refine ⟨rfl, rfl, rfl, ?_, rfl⟩
  decide

/-- C1 (amended). If the pipeline raises at step *k*: the final status is
`"failed"`; `current_step` is the failure marker `"failed"` (the failing
step's name, stored at the step's in-progress transition, is overwritten by
the `FAILED` transition); ExecutionRecords exist for steps 1..k only, in
configured order; the records for steps 1..k−1 are successes; the record for
step *k* is failed and carries the raised error's message; and the original
error is re-raised to the caller of `start` (the run's outcome is that same
error). -/
theorem step_failure_marks_workflow_failed :
    ∀ (vp ap sp np : Process) (wf : Nat) (ed : List (String × String)) (eid : Nat)
      (e : String),
      (startOnboardingRun wf ed eid (workflowSteps vp ap sp np)).2 = some e →
      (startOnboardingRun wf ed eid (workflowSteps vp ap sp np)).1.row.status = "failed" ∧
      (startOnboardingRun wf ed eid (workflowSteps vp ap sp np)).1.row.current_step = "failed" ∧
      ∃ k, 1 ≤ k ∧ k ≤ 4 ∧
        (startOnboardingRun wf ed eid (workflowSteps vp ap sp np)).1.logs.length = k ∧
        (startOnboardingRun wf ed eid (workflowSteps vp ap sp np)).1.logs.map
            (fun a => a.record.agent_type) =
          (["validator", "account_setup", "scheduler", "notifier"].take k) ∧
        (∀ a ∈ (startOnboardingRun wf ed eid (workflowSteps vp ap sp np)).1.logs.dropLast,
          a.record.status = "success") ∧
        (∃ last, (startOnboardingRun wf ed eid (workflowSteps vp ap sp np)).1.logs.getLast? =
            some last ∧
          last.record.status = "failed" ∧ last.record.error_message = some e) := by
  intro vp ap sp np wf ed eid e h
  rcases hrun : runSteps wf (initialPipeState ed eid) (workflowSteps vp ap sp np) with ⟨stp, out⟩
  cases out with
  | none => simp [startOnboardingRun, hrun] at h
  | some e' =>
      have hfst : (runSteps wf (initialPipeState ed eid) (workflowSteps vp ap sp np)).1 = stp := by
        rw [hrun]
      have hchar := runSteps_raise wf (workflowSteps vp ap sp np) (initialPipeState ed eid) e'
        (by rw [hrun])
      rw [hfst] at hchar
      simp only [startOnboardingRun, hrun] at h ⊢
      have he : e' = e := by simpa using h
      subst he
      rcases hchar with ⟨hrow, new, hlogs, h1, h4, hmap, hsucc, hlast, hatt⟩
      have hlogs' : stp.logs = new := by simpa [initialPipeState] using hlogs
      refine ⟨?_, ?_, new.length, h1, by simpa [workflowSteps] using h4, ?_, ?_, ?_, ?_⟩
      · simp [updateWorkflowStatus_failed]
      · simp [updateWorkflowStatus_failed]
      · simp [hlogs']
      · have := hmap
        rw [hlogs']
        simpa [workflowSteps, List.map_take] using this
      · intro a ha
        exact hsucc a (by simpa [hlogs'] using ha)
      · rcases hlast with ⟨last, hl1, hl2, hl3⟩
        exact ⟨last, by simpa [hlogs'] using hl1, hl2, hl3⟩

/-- Witness for C1 (amended) at the concrete failing run of scenario 2. -/
theorem step_failure_marks_workflow_failed_witness :
    c1Run.2 = some "duplicate username" ∧
    c1Run.1.row.status = "failed" ∧ c1Run.1.row.current_step = "failed" :=
  ⟨rfl,
   (step_failure_marks_workflow_failed (fun _ => .ok []) (fun _ => .error "duplicate username")
     (fun _ => .ok []) (fun _ => .ok []) 1 [("name", "John Doe")] 7 "duplicate username" rfl).1,
   (step_failure_marks_workflow_failed (fun _ => .ok []) (fun _ => .error "duplicate username")
     (fun _ => .ok []) (fun _ => .ok []) 1 [("name", "John Doe")] 7 "duplicate username" rfl).2.1⟩

/-! ## C2: a fully successful run -/


/-- Counterexample to C2 as stated. A successful run ends with status
`"completed"` and 4 success records — but `current_step` is `"completed"`,
not the last configured step's name `"notification"`:
`_update_workflow_status` stores the marker `"completed"` on the `COMPLETED`
transition. -/
theorem success_run_current_step_counterexample :
    c2Run.2 = none ∧
    c2Run.1.row.status = "completed" ∧
    c2Run.1.logs.map (fun a => (a.record.agent_type, a.record.status)) =
      [("validator", "success"), ("account_setup", "success"),
       ("scheduler", "success"), ("notifier", "success")] ∧
    c2Run.1.row.current_step ≠ "notification" ∧
    c2Run.1.row.current_step = "completed" := by
  refine ⟨rfl, rfl, rfl, ?_, rfl⟩
  decide

/-- C2 (amended). A run in which all 4 configured steps succeed ends with
workflow status `"completed"`, exactly 4 ExecutionRecords — one per step in
configured order, all with `status = "success"` — and `current_step` equal to
the completion marker `"completed"` (not the last step's name, which the
final `COMPLETED` transition overwrites). -/
theorem success_run_completes :
    ∀ (vp ap sp np : Process) (wf : Nat) (ed : List (String × String)) (eid : Nat),
      (startOnboardingRun wf ed eid (workflowSteps vp ap sp np)).2 = none →
      (startOnboardingRun wf ed eid (workflowSteps vp ap sp np)).1.row.status = "completed" ∧
      (startOnboardingRun wf ed eid (workflowSteps vp ap sp np)).1.row.current_step = "completed" ∧
      (startOnboardingRun wf ed eid (workflowSteps vp ap sp np)).1.logs.length = 4 ∧
      (startOnboardingRun wf ed eid (workflowSteps vp ap sp np)).1.logs.map
          (fun a => a.record.agent_type) =
        ["validator", "account_setup", "scheduler", "notifier"] ∧
      (∀ a ∈ (startOnboardingRun wf ed eid (workflowSteps vp ap sp np)).1.logs,
        a.record.status = "success") := by
  intro vp ap sp np wf ed eid h
  rcases hrun : runSteps wf (initialPipeState ed eid) (workflowSteps vp ap sp np) with ⟨stp, out⟩
  cases out with
  | some e' => simp [startOnboardingRun, hrun] at h
  | none =>
      have hfst : (runSteps wf (initialPipeState ed eid) (workflowSteps vp ap sp np)).1 = stp := by
        rw [hrun]
      have hchar := runSteps_ok wf (workflowSteps vp ap sp np) (initialPipeState ed eid)
        (by rw [hrun])
      rw [hfst] at hchar
      rcases hchar with ⟨new, hlogs, hlen, hmap, hsucc, _⟩
      have hlogs' : stp.logs = new := by simpa [initialPipeState] using hlogs
      simp only [startOnboardingRun, hrun]
      refine ⟨?_, ?_, ?_, ?_, ?_⟩
      · rfl
      · rfl
      · rw [hlogs', hlen]
        rfl
      · rw [hlogs']
        simpa [workflowSteps] using hmap
      · intro a ha
        exact hsucc a (by simpa [hlogs'] using ha)

/-- Witness for C2 (amended) at the concrete fully successful run. -/
theorem success_run_completes_witness :
    c2Run.2 = none ∧
    c2Run.1.row.status = "completed" ∧ c2Run.1.row.current_step = "completed" :=
  ⟨rfl,
   (success_run_completes (fun _ => .ok []) (fun _ => .ok []) (fun _ => .ok [])
     (fun _ => .ok []) 2 [("name", "Jane Roe")] 8 rfl).1,
   (success_run_completes (fun _ => .ok []) (fun _ => .ok []) (fun _ => .ok [])
     (fun _ => .ok []) 2 [("name", "Jane Roe")] 8 rfl).2.1⟩

/-! ## C9: the status machine only moves forward -/


/-- C9. Along every run of the engine over the configured steps, the
sequence of workflow rows (as created, then after every status update
performed by the engine) only moves forward through the step sequence or
jumps to `failed`, never regressing; and after every transition
`current_step` names the step associated with the stored status. -/
theorem status_forward_invariant :
    ∀ (vp ap sp np : Process) (wf : Nat) (ed : List (String × String)) (eid : Nat),
      List.Chain' ForwardStep
        (startOnboardingRun wf ed eid (workflowSteps vp ap sp np)).1.trace ∧
      ∀ row ∈ (startOnboardingRun wf ed eid (workflowSteps vp ap sp np)).1.trace,
        row.current_step = stepAssociatedWith row.status := by
  intro vp ap sp np wf ed eid
  rcases h1 : vp (initialPipeState ed eid).ctx with e1 | r1
  · simp only [startOnboardingRun, workflowSteps, runSteps, execStep, agentExecute, h1]
    simp only [initialPipeState, initialWorkflowRow]
    simp [updateWorkflowStatus, WorkflowStatus.value, ForwardStep, statusRank,
      stepAssociatedWith]
  · rcases h2 : ap (mergeStepResult "validation" (initialPipeState ed eid).ctx r1) with e2 | r2
    · simp only [startOnboardingRun, workflowSteps, runSteps, execStep, agentExecute, h1, h2]
      simp only [initialPipeState, initialWorkflowRow]
      simp [updateWorkflowStatus, WorkflowStatus.value, ForwardStep, statusRank,
        stepAssociatedWith]
    · rcases h3 : sp (mergeStepResult "account_setup"
          (mergeStepResult "validation" (initialPipeState ed eid).ctx r1) r2) with e3 | r3
      · simp only [startOnboardingRun, workflowSteps, runSteps, execStep, agentExecute, h1, h2, h3]
        simp only [initialPipeState, initialWorkflowRow]
        simp [updateWorkflowStatus, WorkflowStatus.value, ForwardStep, statusRank,
          stepAssociatedWith]
      · rcases h4 : np (mergeStepResult "scheduling" (mergeStepResult "account_setup"
            (mergeStepResult "validation" (initialPipeState ed eid).ctx r1) r2) r3) with e4 | r4
        · simp only [startOnboardingRun, workflowSteps, runSteps, execStep, agentExecute,
            h1, h2, h3, h4]
          simp only [initialPipeState, initialWorkflowRow]
          simp [updateWorkflowStatus, WorkflowStatus.value, ForwardStep, statusRank,
            stepAssociatedWith]
        · simp only [startOnboardingRun, workflowSteps, runSteps, execStep, agentExecute,
            h1, h2, h3, h4]
          simp only [initialPipeState, initialWorkflowRow]
          simp [updateWorkflowStatus, WorkflowStatus.value, ForwardStep, statusRank,
            stepAssociatedWith]

/-- Witness for C9 at a concrete fully successful run. -/
theorem status_forward_invariant_witness :
    List.Chain' ForwardStep
      (startOnboardingRun 3 [] 0 (workflowSteps (fun _ => .ok []) (fun _ => .ok [])
        (fun _ => .ok []) (fun _ => .ok []))).1.trace ∧
    ∀ row ∈ (startOnboardingRun 3 [] 0 (workflowSteps (fun _ => .ok []) (fun _ => .ok [])
        (fun _ => .ok []) (fun _ => .ok []))).1.trace,
      row.current_step = stepAssociatedWith row.status :=
  status_forward_invariant (fun _ => .ok []) (fun _ => .ok []) (fun _ => .ok [])
    (fun _ => .ok []) 3 [] 0

/-! ## Bus lemmas -/

theorem pushQueue_lookup_self (st : BusState) (q : String) (m : A2AMessage) :
    lookupStr (pushQueue st q m).queues q = some (m :: (lookupStr st.queues q).getD []) := by
  rcases h : lookupStr st.queues q with _ | msgs <;>
    simp [pushQueue, h, lookupStr_dictSet_self]

theorem pushQueue_lookup_ne (st : BusState) (q q' : String) (m : A2AMessage) (h : q' ≠ q) :
    lookupStr (pushQueue st q m).queues q' = lookupStr st.queues q' := by
  rcases hq : lookupStr st.queues q with _ | msgs <;>
    simp [pushQueue, hq, lookupStr_dictSet_ne _ _ _ _ h]

theorem pushQueue_registry (st : BusState) (q : String) (m : A2AMessage) :
    (pushQueue st q m).registry = st.registry := by
  rcases hq : lookupStr st.queues q with _ | msgs <;> simp [pushQueue, hq]

theorem pushQueue_httpCalls (st : BusState) (q : String) (m : A2AMessage) :
    (pushQueue st q m).httpCalls = st.httpCalls := by
  rcases hq : lookupStr st.queues q with _ | msgs <;> simp [pushQueue, hq]

/-- A direct send never touches the registry. -/
theorem sendDirectMessage_registry (http : HttpFn) (st : BusState) (m : A2AMessage) :
    (sendDirectMessage http st m).2.registry = st.registry := by
  rcases ht : m.target_agent with _ | t
  · simp [sendDirectMessage, ht]
  · rcases hr : lookupStr st.registry t with _ | info
    · simp [sendDirectMessage, ht, hr]
    · rcases he : info.http_endpoint with _ | ep
      · simp [sendDirectMessage, ht, hr, he, pushQueue_registry]
      · simp [sendDirectMessage, sendHttpMessage, ht, hr, he]

/-- Queue contents after a direct send: each queue is unchanged, except that
a queue-transport delivery prepends the envelope to the target's queue. -/
theorem sendDirectMessage_queues (http : HttpFn) (st : BusState) (m : A2AMessage) :
    ∀ (q : String) (msgs : List A2AMessage),
      lookupStr (sendDirectMessage http st m).2.queues q = some msgs →
      lookupStr st.queues q = some msgs ∨
      (∃ t, m.target_agent = some t ∧ q = "agent_" ++ t ++ "_queue" ∧
        msgs = m :: (lookupStr st.queues q).getD []) := by
  intro q msgs h
  rcases ht : m.target_agent with _ | t
  · left; simpa [sendDirectMessage, ht] using h
  · rcases hr : lookupStr st.registry t with _ | info
    · left; simpa [sendDirectMessage, ht, hr] using h
    · rcases he : info.http_endpoint with _ | ep
      · by_cases hq : q = "agent_" ++ t ++ "_queue"
        · subst hq
          right
          refine ⟨t, rfl, rfl, ?_⟩
          have := pushQueue_lookup_self st ("agent_" ++ t ++ "_queue") m
          rw [show (sendDirectMessage http st m).2 =
              pushQueue st ("agent_" ++ t ++ "_queue") m by
            simp [sendDirectMessage, ht, hr, he]] at h
          rw [this] at h
          exact (Option.some.inj h).symm
        · left
          rw [show (sendDirectMessage http st m).2 =
              pushQueue st ("agent_" ++ t ++ "_queue") m by
            simp [sendDirectMessage, ht, hr, he]] at h
          rwa [pushQueue_lookup_ne _ _ _ _ hq] at h
      · left; simpa [sendDirectMessage, sendHttpMessage, ht, hr, he] using h

/-- HTTP-call trace after a direct send: unchanged, or extended by one POST
to the target's registered endpoint carrying the envelope. -/
theorem sendDirectMessage_httpCalls (http : HttpFn) (st : BusState) (m : A2AMessage) :
    (sendDirectMessage http st m).2.httpCalls = st.httpCalls ∨
    (∃ t info ep, m.target_agent = some t ∧ lookupStr st.registry t = some info ∧
      info.http_endpoint = some ep ∧
      (sendDirectMessage http st m).2.httpCalls = st.httpCalls ++ [(ep, m)]) := by
  rcases ht : m.target_agent with _ | t
  · left; simp [sendDirectMessage, ht]
  · rcases hr : lookupStr st.registry t with _ | info
    · left; simp [sendDirectMessage, ht, hr]
    · rcases he : info.http_endpoint with _ | ep
      · left; simp [sendDirectMessage, ht, hr, he, pushQueue_httpCalls]
      · right
        exact ⟨t, info, ep, rfl, hr, he, by simp [sendDirectMessage, sendHttpMessage, ht, hr, he]⟩

/-- The broadcast loop collects exactly one result entry per non-source name,
in iteration order, regardless of per-recipient outcomes. -/
theorem broadcastLoop_keys (http : HttpFn) :
    ∀ (names : List String) (st : BusState) (msg : A2AMessage) (acc : List (String × Val)),
      ((broadcastLoop http names st msg acc).1).map Prod.fst =
        acc.map Prod.fst ++ names.filter (fun n => msg.source_agent ≠ some n) := by
  intro names
  induction names with
  | nil => intro st msg acc; simp [broadcastLoop]
  | cons n rest ih =>
      intro st msg acc
      by_cases hs : msg.source_agent = some n
      · simp [broadcastLoop, hs, ih]
      · rcases hd : sendDirectMessage http st { msg with target_agent := some n } with ⟨res, st'⟩
        cases res with
        | ok r =>
            simp [broadcastLoop, hs, hd, ih]
        | error e =>
            simp [broadcastLoop, hs, hd, ih]

/-- The broadcast loop never changes the envelope's declared source. -/
theorem broadcastLoop_source (http : HttpFn) :
    ∀ (names : List String) (st : BusState) (msg : A2AMessage) (acc : List (String × Val)),
      (broadcastLoop http names st msg acc).2.2.source_agent = msg.source_agent := by
  intro names
  induction names with
  | nil => intro st msg acc; simp [broadcastLoop]
  | cons n rest ih =>
      intro st msg acc
      by_cases hs : msg.source_agent = some n
      · simp [broadcastLoop, hs, ih]
      · rcases hd : sendDirectMessage http st { msg with target_agent := some n } with ⟨res, st'⟩
        cases res with
        | ok r => simp [broadcastLoop, hs, hd, ih]
        | error e => simp [broadcastLoop, hs, hd, ih]

/-- After the broadcast loop, the envelope's target is the last non-source
name iterated (or is unchanged when there was none): the loop overwrites
`message.target_agent` in place for every recipient. -/
theorem broadcastLoop_final_target (http : HttpFn) :
    ∀ (names : List String) (st : BusState) (msg : A2AMessage) (acc : List (String × Val)),
      (∀ l, (names.filter (fun n => msg.source_agent ≠ some n)).getLast? = some l →
        (broadcastLoop http names st msg acc).2.2.target_agent = some l) ∧
      ((names.filter (fun n => msg.source_agent ≠ some n)) = [] →
        (broadcastLoop http names st msg acc).2.2.target_agent = msg.target_agent) := by
  intro names
  induction names with
  | nil =>
      intro st msg acc
      exact ⟨fun l hl => by simp at hl, fun _ => by simp [broadcastLoop]⟩
  | cons n rest ih =>
      intro st msg acc
      by_cases hs : msg.source_agent = some n
      · constructor
        · intro l hl
          have := (ih st msg acc).1 l
          simp only [broadcastLoop, hs, if_pos rfl] at *
          exact this (by simpa [hs] using hl)
        · intro hf
          have := (ih st msg acc).2
          simp only [broadcastLoop, hs, if_pos rfl] at *
          exact this (by simpa [hs] using hf)
      · rcases hd : sendDirectMessage http st { msg with target_agent := some n } with ⟨res, st'⟩
        have hfil : (n :: rest).filter (fun m => msg.source_agent ≠ some m) =
            n :: rest.filter (fun m => msg.source_agent ≠ some m) := by
          simp [hs]
        constructor
        · intro l hl
          rw [hfil] at hl
          rcases hrest : rest.filter (fun m => msg.source_agent ≠ some m) with _ | ⟨b, tl⟩
          · have hln : l = n := by
              rw [hrest] at hl
              exact (show n = l by simpa using hl).symm
            subst hln
            have h2 := (ih st' { msg with target_agent := some l } (acc ++ [(l, match res with
              | .ok r => r
              | .error e => Val.obj [("error", Val.str e)])])).2
            cases res with
            | ok r =>
                have := (ih st' { msg with target_agent := some l } (acc ++ [(l, r)])).2
                simp only [broadcastLoop, hs, hd]
                simpa [hrest] using this (by simpa using hrest)
            | error e =>
                have := (ih st' { msg with target_agent := some l }
                  (acc ++ [(l, Val.obj [("error", Val.str e)])])).2
                simp only [broadcastLoop, hs, hd]
                simpa [hrest] using this (by simpa using hrest)
          · have hl' : (rest.filter (fun m => msg.source_agent ≠ some m)).getLast? = some l := by
              rw [hrest] at hl ⊢
              simpa using hl
            cases res with
            | ok r =>
                have := (ih st' { msg with target_agent := some n } (acc ++ [(n, r)])).1 l
                  (by simpa using hl')
                simp only [broadcastLoop, hs, hd]
                simpa using this
            | error e =>
                have := (ih st' { msg with target_agent := some n }
                  (acc ++ [(n, Val.obj [("error", Val.str e)])])).1 l (by simpa using hl')
                simp only [broadcastLoop, hs, hd]
                simpa using this
        · intro hf
          rw [hfil] at hf
          simp at hf

/-- Every HTTP POST made during the broadcast loop (beyond those already in
the trace) carries an envelope whose target is one of the loop's non-source
names, and goes to that recipient's registered endpoint. -/
theorem broadcastLoop_httpCalls (http : HttpFn) :
    ∀ (names : List String) (st : BusState) (msg : A2AMessage) (acc : List (String × Val)),
      ∀ p ∈ (broadcastLoop http names st msg acc).2.1.httpCalls,
        p ∈ st.httpCalls ∨
        ∃ n ∈ names.filter (fun m => msg.source_agent ≠ some m),
          p.2.target_agent = some n := by
  intro names
  induction names with
  | nil => intro st msg acc p hp; left; simpa [broadcastLoop] using hp
  | cons n rest ih =>
      intro st msg acc p hp
      by_cases hs : msg.source_agent = some n
      · rcases ih st msg acc p (by simpa [broadcastLoop, hs] using hp) with h | ⟨n', hn', ht⟩
        · exact Or.inl h
        · refine Or.inr ⟨n', ?_, ht⟩
          have hmf := List.mem_filter.1 hn'
          exact List.mem_filter.2 ⟨List.mem_cons_of_mem _ hmf.1, hmf.2⟩
      · rcases hd : sendDirectMessage http st { msg with target_agent := some n } with ⟨res, st'⟩
        have hst' : st' = (sendDirectMessage http st { msg with target_agent := some n }).2 := by
          rw [hd]
        have hp' : p ∈ (broadcastLoop http rest st' { msg with target_agent := some n }
            (acc ++ [(n, match res with
              | .ok r => r
              | .error e => Val.obj [("error", Val.str e)])])).2.1.httpCalls := by
          cases res with
          | ok r => simpa [broadcastLoop, hs, hd] using hp
          | error e => simpa [broadcastLoop, hs, hd] using hp
        rcases ih st' { msg with target_agent := some n } _ p hp' with h | ⟨n', hn', ht⟩
        · -- the call was in st'.httpCalls: either already in st, or the POST to n
          rcases sendDirectMessage_httpCalls http st { msg with target_agent := some n } with
            hsame | ⟨t, info, ep, htg, _, _, happ⟩
          · rw [hst', hsame] at h
            exact Or.inl h
          · rw [hst', happ] at h
            rcases List.mem_append.1 h with h1 | h1
            · exact Or.inl h1
            · have : p = (ep, { msg with target_agent := some n }) := by simpa using h1
              subst this
              have htn : t = n := (show n = t by simpa using htg).symm
              refine Or.inr ⟨n, ?_, rfl⟩
              simp [hs]
        · refine Or.inr ⟨n', ?_, ht⟩
          have := List.mem_filter.1 hn'
          refine List.mem_filter.2 ⟨List.mem_cons_of_mem _ this.1, by simpa using this.2⟩

/-- Every message found in a queue after the broadcast loop was either
already in that queue, or was pushed by the loop for a non-source recipient:
it then sits in that recipient's queue and its target is that recipient. -/
theorem broadcastLoop_queues (http : HttpFn) :
    ∀ (names : List String) (st : BusState) (msg : A2AMessage) (acc : List (String × Val)),
      ∀ (q : String) (msgs : List A2AMessage),
        lookupStr (broadcastLoop http names st msg acc).2.1.queues q = some msgs →
        ∀ m ∈ msgs,
          (∃ msgs₀, lookupStr st.queues q = some msgs₀ ∧ m ∈ msgs₀) ∨
          ∃ n ∈ names.filter (fun x => msg.source_agent ≠ some x),
            q = "agent_" ++ n ++ "_queue" ∧ m.target_agent = some n := by
  intro names
  induction names with
  | nil =>
      intro st msg acc q msgs hq m hm
      exact Or.inl ⟨msgs, by simpa [broadcastLoop] using hq, hm⟩
  | cons n rest ih =>
      intro st msg acc q msgs hq m hm
      by_cases hs : msg.source_agent = some n
      · rcases ih st msg acc q msgs (by simpa [broadcastLoop, hs] using hq) m hm with
          h | ⟨n', hn', hqn, ht⟩
        · exact Or.inl h
        · refine Or.inr ⟨n', ?_, hqn, ht⟩
          have := List.mem_filter.1 hn'
          exact List.mem_filter.2 ⟨List.mem_cons_of_mem _ this.1, this.2⟩
      · rcases hd : sendDirectMessage http st { msg with target_agent := some n } with ⟨res, st'⟩
        have hst' : st' = (sendDirectMessage http st { msg with target_agent := some n }).2 := by
          rw [hd]
        have hq' : lookupStr (broadcastLoop http rest st' { msg with target_agent := some n }
            (acc ++ [(n, match res with
              | .ok r => r
              | .error e => Val.obj [("error", Val.str e)])])).2.1.queues q = some msgs := by
          cases res with
          | ok r => simpa [broadcastLoop, hs, hd] using hq
          | error e => simpa [broadcastLoop, hs, hd] using hq
        rcases ih st' { msg with target_agent := some n } _ q msgs hq' m hm with
          ⟨msgs₀, hm0, hmem⟩ | ⟨n', hn', hqn, ht⟩
        · -- the message was in st''s queue q: unchanged, or pushed by this send
          rw [hst'] at hm0
          rcases sendDirectMessage_queues http st { msg with target_agent := some n } q msgs₀ hm0
            with h0 | ⟨t, htg, hqt, hcons⟩
          · exact Or.inl ⟨msgs₀, h0, hmem⟩
          · have htn : t = n := (show n = t by simpa using htg).symm
            subst htn
            rw [hcons] at hmem
            rcases List.mem_cons.1 hmem with h1 | h1
            · subst h1
              refine Or.inr ⟨t, ?_, hqt, rfl⟩
              simp [hs]
            · rcases hold : lookupStr st.queues q with _ | msgs₁
              · rw [hold] at h1; simp at h1
              · rw [hold] at h1
                exact Or.inl ⟨msgs₁, rfl, by simpa using h1⟩
        · refine Or.inr ⟨n', ?_, hqn, ht⟩
          have := List.mem_filter.1 hn'
          refine List.mem_filter.2 ⟨List.mem_cons_of_mem _ this.1, by simpa using this.2⟩

/-! ## C5: direct delivery -/

/-- C5. For a direct delivery (target set): an unregistered target raises the
addressing error with the bus state untouched (no queue write, no call
attempt); a target registered with a synchronous endpoint is delivered by one
HTTP call whose return value is the callee's response, with no queue write;
a target registered without an endpoint has the envelope prepended to its
durable per-target queue, the call returning the `queued` acknowledgment with
no call attempt. -/
theorem direct_delivery_semantics :
    ∀ (http : HttpFn) (st : BusState) (msg : A2AMessage) (t : String),
      msg.target_agent = some t →
      ((lookupStr st.registry t = none →
          (sendDirectMessage http st msg).1 =
            .error ("Target agent " ++ t ++ " not registered") ∧
          (sendDirectMessage http st msg).2 = st) ∧
       (∀ info ep, lookupStr st.registry t = some info → info.http_endpoint = some ep →
          (sendDirectMessage http st msg).1 = http ep msg ∧
          (sendDirectMessage http st msg).2.queues = st.queues ∧
          (sendDirectMessage http st msg).2.httpCalls = st.httpCalls ++ [(ep, msg)]) ∧
       (∀ info, lookupStr st.registry t = some info → info.http_endpoint = none →
          (sendDirectMessage http st msg).1 =
            .ok (Val.obj [("status", Val.str "queued"),
                          ("queue", Val.str ("agent_" ++ t ++ "_queue"))]) ∧
          (sendDirectMessage http st msg).2.httpCalls = st.httpCalls ∧
          lookupStr (sendDirectMessage http st msg).2.queues ("agent_" ++ t ++ "_queue") =
            some (msg :: (lookupStr st.queues ("agent_" ++ t ++ "_queue")).getD []))) := by
  intro http st msg t ht
  refine ⟨?_, ?_, ?_⟩
  · intro h
    constructor <;> simp [sendDirectMessage, ht, h]
  · intro info ep h hep
    refine ⟨?_, ?_, ?_⟩ <;> simp [sendDirectMessage, sendHttpMessage, ht, h, hep]
  · intro info h hep
    refine ⟨?_, ?_, ?_⟩
    · simp [sendDirectMessage, ht, h, hep]
    · simp [sendDirectMessage, ht, h, hep, pushQueue_httpCalls]
    · rw [show (sendDirectMessage http st msg).2 =
          pushQueue st ("agent_" ++ t ++ "_queue") msg by
        simp [sendDirectMessage, ht, h, hep]]
      exact pushQueue_lookup_self st ("agent_" ++ t ++ "_queue") msg


/-- Witness for C5 at concrete bus states: an unregistered target, a target
with an endpoint, and a queue-only target. -/
theorem direct_delivery_semantics_witness :
    ((sendDirectMessage httpPong busExample (pingMessage (some "ghost"))).1 =
        .error "Target agent ghost not registered" ∧
      (sendDirectMessage httpPong busExample (pingMessage (some "ghost"))).2 = busExample) ∧
    (sendDirectMessage httpPong busExample (pingMessage (some "B"))).1 = .ok (Val.str "pong") ∧
    lookupStr (sendDirectMessage httpPong busExample (pingMessage (some "A"))).2.queues
      "agent_A_queue" = some [pingMessage (some "A")] := by
  refine ⟨?_, ?_, ?_⟩
  · exact (direct_delivery_semantics httpPong busExample (pingMessage (some "ghost"))
      "ghost" rfl).1 rfl
  · exact ((direct_delivery_semantics httpPong busExample (pingMessage (some "B"))
      "B" rfl).2.1 ⟨some "/api/b"⟩ "/api/b" rfl rfl).1
  · exact ((direct_delivery_semantics httpPong busExample (pingMessage (some "A"))
      "A" rfl).2.2 ⟨none⟩ rfl rfl).2.2

/-! ## C6: broadcast is partial-failure, never fail-fast -/

/-- C6. A broadcast delivers to every registered participant except the
declared source: the returned `broadcast_results` map has exactly one entry
per such recipient, in registry order, for every possible per-recipient
transport behaviour `http` — in particular a per-recipient failure (captured
as that recipient's entry) never prevents entries for the remaining
recipients, and the call returns normally. With zero other registered
participants the result map is empty. -/
theorem broadcast_partial_failure :
    ∀ (http : HttpFn) (st : BusState) (msg : A2AMessage),
      ∃ results,
        (broadcastMessage http st msg).1 = Val.obj [("broadcast_results", Val.obj results)] ∧
        results.map Prod.fst = broadcastRecipients st msg ∧
        (broadcastRecipients st msg = [] → results = []) := by
  intro http st msg
  rcases hb : broadcastLoop http (st.registry.map Prod.fst) st msg [] with ⟨res, st', msg'⟩
  have hkeys := broadcastLoop_keys http (st.registry.map Prod.fst) st msg []
  rw [hb] at hkeys
  simp only [List.map_nil, List.nil_append] at hkeys
  refine ⟨res, ?_, ?_, ?_⟩
  · simp [broadcastMessage, hb]
  · simpa [broadcastRecipients] using hkeys
  · intro hrec
    have : res.map Prod.fst = [] := by
      rw [hkeys]
      simpa [broadcastRecipients] using hrec
    simpa using this

/-- Witness for C6: broadcast from a source with two other registered
participants, one of which fails — both get entries; and a broadcast over an
empty registry returns the empty map. -/
theorem broadcast_partial_failure_witness :
    (∃ results,
       (broadcastMessage httpTimeout busExample (pingMessage none)).1 =
         Val.obj [("broadcast_results", Val.obj results)] ∧
       results.map Prod.fst = ["B", "C"]) ∧
    (∃ results,
       (broadcastMessage httpPong emptyBusExample (pingMessage none)).1 =
         Val.obj [("broadcast_results", Val.obj results)] ∧
       results = []) := by
  constructor
  · rcases broadcast_partial_failure httpTimeout busExample (pingMessage none) with
      ⟨results, h1, h2, _⟩
    exact ⟨results, h1, by rw [h2]; rfl⟩
  · rcases broadcast_partial_failure httpPong emptyBusExample (pingMessage none) with
      ⟨results, h1, _, h3⟩
    exact ⟨results, h1, h3 rfl⟩

/-! ## C10: broadcast mutates the shared envelope -/

/-- C10. The broadcast loop overwrites the caller's envelope in place: every
envelope delivered during the broadcast carries `target_agent = some n` for
the recipient `n` it was delivered to (queue entries sit in that recipient's
queue with its name as target; HTTP posts carry a recipient's name as
target), and after the broadcast returns the caller's message object has its
target set to the last recipient iterated — the absent-target broadcast
marker is destroyed. -/
theorem broadcast_mutates_target :
    ∀ (http : HttpFn) (st : BusState) (msg : A2AMessage),
      (∀ l, (broadcastRecipients st msg).getLast? = some l →
        (broadcastMessage http st msg).2.2.target_agent = some l) ∧
      (∀ p ∈ (broadcastMessage http st msg).2.1.httpCalls,
        p ∈ st.httpCalls ∨
        ∃ n ∈ broadcastRecipients st msg, p.2.target_agent = some n) ∧
      (∀ (q : String) (msgs : List A2AMessage),
        lookupStr (broadcastMessage http st msg).2.1.queues q = some msgs →
        ∀ m ∈ msgs,
          (∃ msgs₀, lookupStr st.queues q = some msgs₀ ∧ m ∈ msgs₀) ∨
          ∃ n ∈ broadcastRecipients st msg,
            q = "agent_" ++ n ++ "_queue" ∧ m.target_agent = some n) := by
  intro http st msg
  rcases hb : broadcastLoop http (st.registry.map Prod.fst) st msg [] with ⟨res, st', msg'⟩
  refine ⟨?_, ?_, ?_⟩
  · intro l hl
    have := (broadcastLoop_final_target http (st.registry.map Prod.fst) st msg []).1 l
      (by simpa [broadcastRecipients] using hl)
    rw [hb] at this
    simpa [broadcastMessage, hb] using this
  · intro p hp
    have := broadcastLoop_httpCalls http (st.registry.map Prod.fst) st msg [] p
      (by rw [hb]; simpa [broadcastMessage, hb] using hp)
    simpa [broadcastRecipients] using this
  · intro q msgs hq m hm
    have := broadcastLoop_queues http (st.registry.map Prod.fst) st msg [] q msgs
      (by rw [hb]; simpa [broadcastMessage, hb] using hq) m hm
    simpa [broadcastRecipients] using this

/-- Witness for C10: after a broadcast from `A` over registry `[A, B, C]`
(queue transports), the caller's envelope ends with target `C`, and the queue
entries carry their recipients as targets. -/
theorem broadcast_mutates_target_witness :
    (broadcastMessage httpPong queueBusExample (pingMessage none)).2.2.target_agent =
      some "C" ∧
    ∀ (q : String) (msgs : List A2AMessage),
      lookupStr (broadcastMessage httpPong queueBusExample (pingMessage none)).2.1.queues q =
        some msgs →
      ∀ m ∈ msgs,
        (∃ msgs₀, lookupStr queueBusExample.queues q = some msgs₀ ∧ m ∈ msgs₀) ∨
        ∃ n ∈ broadcastRecipients queueBusExample (pingMessage none),
          q = "agent_" ++ n ++ "_queue" ∧ m.target_agent = some n := by
  refine ⟨?_, ?_⟩
  · exact (broadcast_mutates_target httpPong queueBusExample (pingMessage none)).1 "C" rfl
  · exact (broadcast_mutates_target httpPong queueBusExample (pingMessage none)).2.2

/-! ## C7: bulk processing -/

theorem categorizeBulk_append (l1 l2 : List (Val × Except String Val)) :
    categorizeBulk (l1 ++ l2) =
      ((categorizeBulk l1).1 ++ (categorizeBulk l2).1,
       (categorizeBulk l1).2 ++ (categorizeBulk l2).2) := by
  induction l1 with
  | nil => simp [categorizeBulk]
  | cons p rest ih =>
      rcases p with ⟨item, res⟩
      cases res with
      | ok r => simp [categorizeBulk, ih]
      | error e => simp [categorizeBulk, ih]

/-- Zipping a batch with its own mapped outcomes distributes over append. -/
theorem zip_map_append (f : Val → Except String Val) (l1 l2 : List Val) :
    (l1 ++ l2).zip ((l1 ++ l2).map f) = l1.zip (l1.map f) ++ l2.zip (l2.map f) := by
  induction l1 with
  | nil => simp
  | cons x rest ih =>
      simp only [List.cons_append, List.map_cons, List.zip_cons_cons]
      rw [ih]

/-- Categorizing an all-successful batch yields no failures and one success
per item. -/
theorem categorizeBulk_all_ok (start : Val → Except String Val) :
    ∀ (l : List Val), (∀ x ∈ l, ∃ v, start x = .ok v) →
      (categorizeBulk (l.zip (l.map start))).2 = [] ∧
      (categorizeBulk (l.zip (l.map start))).1.length = l.length := by
  intro l
  induction l with
  | nil => intro _; simp [categorizeBulk]
  | cons x rest ih =>
      intro h
      rcases h x (List.mem_cons_self x rest) with ⟨v, hv⟩
      have := ih (fun y hy => h y (List.mem_cons_of_mem _ hy))
      simp [categorizeBulk, hv]
      exact this

/-- C7. A bulk start over `pre ++ [bad] ++ post` where every item of `pre`
and `post` starts successfully and `bad` fails with error text `e`: the
summary reports total = N, successCount = N − 1, failCount = 1; the single
failure entry carries the original offending input and the captured error
text; and the successful results are exactly those of the batch with the
invalid item absent — the item failure never aborts the batch. -/
theorem bulk_single_invalid_item :
    ∀ (start : Val → Except String Val) (pre post : List Val) (bad : Val) (e : String),
      (∀ x ∈ pre ++ post, ∃ v, start x = .ok v) →
      start bad = .error e →
      (processBulkEmployees start (pre ++ bad :: post)).total_processed =
        pre.length + 1 + post.length ∧
      (processBulkEmployees start (pre ++ bad :: post)).successful =
        pre.length + post.length ∧
      (processBulkEmployees start (pre ++ bad :: post)).failed = 1 ∧
      (processBulkEmployees start (pre ++ bad :: post)).failed_workflows =
        [Val.obj [("employee_data", bad), ("error", Val.str e)]] ∧
      (processBulkEmployees start (pre ++ bad :: post)).successful_workflows =
        (processBulkEmployees start (pre ++ post)).successful_workflows := by
  intro start pre post bad e hok hbad
  have hpre : ∀ x ∈ pre, ∃ v, start x = .ok v :=
    fun x hx => hok x (List.mem_append_left _ hx)
  have hpost : ∀ x ∈ post, ∃ v, start x = .ok v :=
    fun x hx => hok x (List.mem_append_right _ hx)
  have hzip : (pre ++ bad :: post).zip ((pre ++ bad :: post).map start) =
      pre.zip (pre.map start) ++ (bad, start bad) :: post.zip (post.map start) := by
    rw [zip_map_append]
    simp
  have hzip2 : (pre ++ post).zip ((pre ++ post).map start) =
      pre.zip (pre.map start) ++ post.zip (post.map start) := zip_map_append start pre post
  have hcatPre := categorizeBulk_all_ok start pre hpre
  have hcatPost := categorizeBulk_all_ok start post hpost
  have hcat : categorizeBulk ((pre ++ bad :: post).zip ((pre ++ bad :: post).map start)) =
      ((categorizeBulk (pre.zip (pre.map start))).1 ++
        (categorizeBulk (post.zip (post.map start))).1,
       (categorizeBulk (pre.zip (pre.map start))).2 ++
        (Val.obj [("employee_data", bad), ("error", Val.str e)] ::
          (categorizeBulk (post.zip (post.map start))).2)) := by
    rw [hzip, categorizeBulk_append]
    simp [categorizeBulk, hbad]
  refine ⟨?_, ?_, ?_, ?_, ?_⟩
  · simp [processBulkEmployees]
    omega
  · simp only [processBulkEmployees, hcat]
    simp [hcatPre.2, hcatPost.2]
  · simp only [processBulkEmployees, hcat]
    simp [hcatPre.1, hcatPost.1]
  · simp only [processBulkEmployees, hcat]
    simp [hcatPre.1, hcatPost.1]
  · simp only [processBulkEmployees, hcat, hzip2, categorizeBulk_append]


/-- Witness for C7: a batch of 3 with item 2 invalid. -/
theorem bulk_single_invalid_item_witness :
    (processBulkEmployees bulkStartExample [Val.num 1, Val.num 2, Val.num 3]).total_processed = 3 ∧
    (processBulkEmployees bulkStartExample [Val.num 1, Val.num 2, Val.num 3]).successful = 2 ∧
    (processBulkEmployees bulkStartExample [Val.num 1, Val.num 2, Val.num 3]).failed = 1 ∧
    (processBulkEmployees bulkStartExample [Val.num 1, Val.num 2, Val.num 3]).failed_workflows =
      [Val.obj [("employee_data", Val.num 2),
                ("error", Val.str "Missing required field: name")]] := by
  have h := bulk_single_invalid_item bulkStartExample [Val.num 1] [Val.num 3] (Val.num 2)
    "Missing required field: name"
    (by intro x hx; fin_cases hx <;> exact ⟨_, rfl⟩) rfl
  exact ⟨h.1, h.2.1, h.2.2.1, h.2.2.2.1⟩

/-! ## C8: validation failures do not fail the workflow -/

/-- Decoding the string-valued employee dict back out of the context
round-trips. -/
theorem stringFields_roundtrip (emp : List (String × String)) :
    emp.filterMap ((fun p : String × Val =>
      match p.2 with
      | Val.str s => some (p.1, s)
      | _ => none) ∘ (fun p : String × String => (p.1, Val.str p.2))) = emp := by
  induction emp with
  | nil => rfl
  | cons p rest ih => simp [Function.comp, ih]

/-- Projections of one successful loop iteration: no exception, one success
record for the step's agent appended, and the in-progress and completed rows
appended to the trace. -/
theorem execStep_ok_proj (wf : Nat) (st : PipeState) (step : StepRT) (r : RDict)
    (hp : step.process st.ctx = .ok r) :
    (execStep wf st step).2 = none ∧
    (execStep wf st step).1.logs = st.logs ++ [logExecution step.cfg.agentType true true wf
      "process" (Val.obj st.ctx) (some (Val.obj r)) "success" none] ∧
    (execStep wf st step).1.trace = st.trace ++
      [updateWorkflowStatus st.row step.cfg.inProgress,
       updateWorkflowStatus (updateWorkflowStatus st.row step.cfg.inProgress)
         step.cfg.completion] := by
  refine ⟨?_, ?_, ?_⟩ <;> simp [execStep, agentExecute, hp, List.append_assoc]

/-- When an iteration does not raise, the loop continues from its resulting
state. -/
theorem runSteps_cons_none (wf : Nat) (st : PipeState) (step : StepRT) (rest : List StepRT)
    (h : (execStep wf st step).2 = none) :
    runSteps wf st (step :: rest) = runSteps wf (execStep wf st step).1 rest := by
  rcases he : execStep wf st step with ⟨st', out⟩
  cases out with
  | none => simp [runSteps, he]
  | some e => rw [he] at h; simp at h

/-- One loop iteration only appends to the trace of status updates. -/
theorem execStep_trace_grows (wf : Nat) (st : PipeState) (step : StepRT) :
    ∃ suffix, (execStep wf st step).1.trace = st.trace ++ suffix := by
  rcases hp : step.process st.ctx with e | r
  · exact ⟨[updateWorkflowStatus st.row step.cfg.inProgress,
      updateWorkflowStatus (updateWorkflowStatus st.row step.cfg.inProgress) .failed],
      by simp [execStep, agentExecute, hp, List.append_assoc]⟩
  · exact ⟨[updateWorkflowStatus st.row step.cfg.inProgress,
      updateWorkflowStatus (updateWorkflowStatus st.row step.cfg.inProgress)
        step.cfg.completion],
      by simp [execStep, agentExecute, hp, List.append_assoc]⟩

/-- The step loop only ever appends to the trace of status updates. -/
theorem runSteps_trace_grows (wf : Nat) :
    ∀ (steps : List StepRT) (st : PipeState),
      ∃ suffix, (runSteps wf st steps).1.trace = st.trace ++ suffix := by
  intro steps
  induction steps with
  | nil => intro st; exact ⟨[], by simp [runSteps]⟩
  | cons step rest ih =>
      intro st
      rcases he : execStep wf st step with ⟨st', out⟩
      rcases execStep_trace_grows wf st step with ⟨s1, hs1⟩
      rw [he] at hs1
      cases out with
      | some e => exact ⟨s1, by simp only [runSteps, he]; exact hs1⟩
      | none =>
          rcases ih st' with ⟨s2, hs2⟩
          exact ⟨s1 ++ s2, by simp only [runSteps, he]; rw [hs2, hs1, List.append_assoc]⟩

/-- The audit log of `start` is the audit log of the step loop (the final
status update writes no records). -/
theorem startOnboardingRun_logs (wf : Nat) (ed : List (String × String)) (eid : Nat)
    (steps : List StepRT) :
    (startOnboardingRun wf ed eid steps).1.logs =
      (runSteps wf (initialPipeState ed eid) steps).1.logs := by
  rcases h : runSteps wf (initialPipeState ed eid) steps with ⟨stp, out⟩
  cases out <;> simp [startOnboardingRun, h]

/-- The trace of `start` is the loop's trace plus the one final status
update. -/
theorem startOnboardingRun_trace (wf : Nat) (ed : List (String × String)) (eid : Nat)
    (steps : List StepRT) :
    ∃ row, (startOnboardingRun wf ed eid steps).1.trace =
      (runSteps wf (initialPipeState ed eid) steps).1.trace ++ [row] := by
  rcases h : runSteps wf (initialPipeState ed eid) steps with ⟨stp, out⟩
  cases out with
  | none =>
      exact ⟨updateWorkflowStatus stp.row .completed, by simp [startOnboardingRun, h]⟩
  | some e =>
      exact ⟨updateWorkflowStatus stp.row .failed, by simp [startOnboardingRun, h]⟩

/-- C8 (amended). When a required field is missing or empty, the validator
reports the failure inside its returned result (`is_valid = false`) without
raising: its ExecutionRecord is a `success` record, the workflow transitions
to `validation_completed` (not `failed`), and the second step is still
attempted — the validation failure is handled locally and does not fail the
workflow at the validation step. -/
theorem validation_failure_not_failed_record :
    ∀ (today : PyDate) (ap sp np : Process) (wf : Nat) (ed : List (String × String))
      (eid : Nat),
      validatorRequiredFields.filter (fun f =>
        match lookupStr ed f with
        | none => true
        | some v => v = "") ≠ [] →
      (validatorProcess today ed).is_valid = false ∧
      ∃ a rest,
        (startOnboardingRun wf ed eid
          (workflowSteps (validatorAgentProcess today) ap sp np)).1.logs = a :: rest ∧
        a.record.agent_type = "validator" ∧
        a.record.status = "success" ∧
        rest ≠ [] ∧
        WorkflowRow.mk "validation_completed" "validation" ∈
          (startOnboardingRun wf ed eid
            (workflowSteps (validatorAgentProcess today) ap sp np)).1.trace := by
  intro today ap sp np wf ed eid hmiss
  have hcond : ¬ (validatorRequiredFields.filter (fun f =>
      match lookupStr ed f with
      | none => true
      | some v => v = "")).isEmpty := by
    intro h
    exact hmiss (List.isEmpty_iff.1 h)
  have hv : validatorAgentProcess today (initialPipeState ed eid).ctx =
      .ok (validationResultToDict (validatorProcess today ed)) := by
    simp [validatorAgentProcess, initialPipeState, lookupStr, stringFields_roundtrip]
  -- the first configured step and the remaining three
  have hsteps : workflowSteps (validatorAgentProcess today) ap sp np =
      (⟨⟨"validation", "validator", .validation_in_progress, .validation_completed⟩,
        validatorAgentProcess today⟩ : StepRT) ::
      [⟨⟨"account_setup", "account_setup", .account_setup_in_progress,
          .account_setup_completed⟩, ap⟩,
       ⟨⟨"scheduling", "scheduler", .scheduling_in_progress, .scheduling_completed⟩, sp⟩,
       ⟨⟨"notification", "notifier", .notification_in_progress,
          .notification_completed⟩, np⟩] := rfl
  have hproj := execStep_ok_proj wf (initialPipeState ed eid)
    ⟨⟨"validation", "validator", .validation_in_progress, .validation_completed⟩,
      validatorAgentProcess today⟩ (validationResultToDict (validatorProcess today ed)) hv
  have hcons := runSteps_cons_none wf (initialPipeState ed eid)
    ⟨⟨"validation", "validator", .validation_in_progress, .validation_completed⟩,
      validatorAgentProcess today⟩
    [⟨⟨"account_setup", "account_setup", .account_setup_in_progress,
        .account_setup_completed⟩, ap⟩,
     ⟨⟨"scheduling", "scheduler", .scheduling_in_progress, .scheduling_completed⟩, sp⟩,
     ⟨⟨"notification", "notifier", .notification_in_progress,
        .notification_completed⟩, np⟩] hproj.1
  refine ⟨?_, ?_⟩
  · rw [validatorProcess, if_pos hcond]
  · -- name the state after the successful validation step
    set S1 := execStep wf (initialPipeState ed eid)
      ⟨⟨"validation", "validator", .validation_in_progress, .validation_completed⟩,
        validatorAgentProcess today⟩ with hS1
    -- the remaining loop appends at least one record (the second step runs)
    have hnew : ∃ new : List LogAttempt,
        (runSteps wf S1.1 [⟨⟨"account_setup", "account_setup", .account_setup_in_progress,
            .account_setup_completed⟩, ap⟩,
          ⟨⟨"scheduling", "scheduler", .scheduling_in_progress, .scheduling_completed⟩, sp⟩,
          ⟨⟨"notification", "notifier", .notification_in_progress,
             .notification_completed⟩, np⟩]).1.logs = S1.1.logs ++ new ∧ new ≠ [] := by
      rcases hout : (runSteps wf S1.1 [⟨⟨"account_setup", "account_setup",
          .account_setup_in_progress, .account_setup_completed⟩, ap⟩,
        ⟨⟨"scheduling", "scheduler", .scheduling_in_progress, .scheduling_completed⟩, sp⟩,
        ⟨⟨"notification", "notifier", .notification_in_progress,
           .notification_completed⟩, np⟩]).2 with _ | e
      · rcases runSteps_ok wf _ S1.1 hout with ⟨new, h1, h2, _, _, _⟩
        refine ⟨new, h1, ?_⟩
        intro hnil
        rw [hnil] at h2
        simp at h2
      · rcases runSteps_raise wf _ S1.1 e hout with ⟨_, new, h1, h2, _, _, _, _, _⟩
        refine ⟨new, h1, ?_⟩
        intro hnil
        rw [hnil] at h2
        simp at h2
    rcases hnew with ⟨new, hnewlogs, hnewne⟩
    have hlogs1 : S1.1.logs = [logExecution "validator" true true wf "process"
        (Val.obj (initialPipeState ed eid).ctx)
        (some (Val.obj (validationResultToDict (validatorProcess today ed))))
        "success" none] := by
      rw [hproj.2.1]
      simp [initialPipeState]
    refine ⟨logExecution "validator" true true wf "process"
        (Val.obj (initialPipeState ed eid).ctx)
        (some (Val.obj (validationResultToDict (validatorProcess today ed))))
        "success" none, new, ?_, rfl, rfl, hnewne, ?_⟩
    · rw [startOnboardingRun_logs, hsteps, hcons, hnewlogs, hlogs1]
      rfl
    · rcases startOnboardingRun_trace wf ed eid
        (workflowSteps (validatorAgentProcess today) ap sp np) with ⟨row, hrow⟩
      rw [hrow, hsteps, hcons]
      rcases runSteps_trace_grows wf _ S1.1 with ⟨suffix, hsuf⟩
      rw [hsuf, hproj.2.2]
      have : WorkflowRow.mk "validation_completed" "validation" =
          updateWorkflowStatus (updateWorkflowStatus (initialPipeState ed eid).row
            WorkflowStatus.validation_in_progress) WorkflowStatus.validation_completed := rfl
      rw [this]
      simp


/-- Counterexample to C8 as stated. On input failing validation (all required
fields missing, `is_valid = false`), the validator's ExecutionRecord has
`status = "success"` — not `failed` — and the workflow's final status is
`"completed"` — not `Failed`: `ValidatorAgent.process` reports validation
errors inside its result instead of raising, and the orchestrator never
inspects `is_valid`. -/
theorem validation_failure_counterexample :
    (validatorProcess ⟨2025, 1, 1⟩ []).is_valid = false ∧
    c8Run.1.logs.map (fun a => (a.record.agent_type, a.record.status)) =
      [("validator", "success"), ("account_setup", "success"),
       ("scheduler", "success"), ("notifier", "success")] ∧
    c8Run.1.row.status = "completed" ∧
    c8Run.1.row.status ≠ "failed" := by
  refine ⟨rfl, rfl, rfl, ?_⟩
  decide

/-- Witness for C8 (amended) at the concrete run with the empty employee
dict. -/
theorem validation_failure_not_failed_record_witness :
    (validatorProcess ⟨2025, 1, 1⟩ []).is_valid = false ∧
    ∃ a rest,
      c8Run.1.logs = a :: rest ∧
      a.record.agent_type = "validator" ∧
      a.record.status = "success" ∧
      rest ≠ [] ∧
      WorkflowRow.mk "validation_completed" "validation" ∈ c8Run.1.trace :=
  validation_failure_not_failed_record ⟨2025, 1, 1⟩
    (fun _ => .ok []) (fun _ => .ok []) (fun _ => .ok []) 1 [] 7 (by decide)

end KrnlOnboarding

